import Mathlib

/-!
Verification development for the cvplus-i18n repository.

Each section embeds one part of the TypeScript source as executable Lean
definitions (shallow embedding): pure functions become Lean functions,
mutation of in-memory state becomes explicit state passing, thrown JS
errors become `Except` errors, JS `undefined`-able fields become `Option`,
and JS numbers appearing in arithmetic that the claims reason about become
`Rat` (exact arithmetic; the source constants are small decimal literals).
JS truthiness is modelled where the source relies on it (empty string,
zero and `undefined`/`null` are falsy; objects and arrays, also empty
ones, are truthy).
-/

namespace CVPlusI18n

/-! ## Constants & pluralization (src/constants/index.ts) -/

/-- The ten supported language codes (`SUPPORTED_LANGUAGES`). -/
inductive SupportedLanguage where
  | en | es | fr | de | pt | ja | zh | ar | ru | nl
deriving DecidableEq, Repr

/-- The six grammatical plural categories. -/
inductive PluralCategory where
  | zero | one | two | few | many | other
deriving DecidableEq, Repr

/-- Embedding of the Russian entry of `PLURALIZATION_RULES`
(src/constants/index.ts lines 217-228): `lastDigit = count % 10`,
`lastTwoDigits = count % 100`, with the source's cascade of conditions. -/
def ruPluralRule (count : Nat) : PluralCategory :=
  let lastDigit := count % 10
  let lastTwoDigits := count % 100
  if lastDigit = 1 ∧ lastTwoDigits ≠ 11 then .one
  else if (2 ≤ lastDigit ∧ lastDigit ≤ 4) ∧ ¬(12 ≤ lastTwoDigits ∧ lastTwoDigits ≤ 14) then .few
  else if lastDigit = 0 ∨ (5 ≤ lastDigit ∧ lastDigit ≤ 9) ∨ (11 ≤ lastTwoDigits ∧ lastTwoDigits ≤ 14)
    then .many
  else .other

/-- Embedding of the per-language rule functions of `PLURALIZATION_RULES`
(src/constants/index.ts lines 173-233). -/
def pluralizationRule : SupportedLanguage → Nat → PluralCategory
  | .en, count => if count = 1 then .one else .other
  | .es, count => if count = 1 then .one else .other
  | .fr, count =>
      if count = 0 ∨ count = 1 then .one
      else if 1000000 ≤ count then .many
      else .other
  | .de, count => if count = 1 then .one else .other
  | .pt, count => if count = 1 then .one else .other
  | .ja, _ => .other
  | .zh, _ => .other
  | .ar, count =>
      if count = 0 then .zero
      else if count = 1 then .one
      else if count = 2 then .two
      else if 3 ≤ count ∧ count ≤ 10 then .few
      else if 11 ≤ count ∧ count ≤ 99 then .many
      else .other
  | .ru, count => ruPluralRule count
  | .nl, count => if count = 1 then .one else .other

/-! ## Theorems for claim C1 -/

/-- C1: for every non-negative integer count the per-language pluralization
rules return exactly the categories the spec fixes: for en, es, pt, de and
nl the rule returns `one` iff count = 1 and `other` otherwise; for ja and
zh it always returns `other`; for fr it returns `one` iff count is 0 or 1,
`many` iff count ≥ 1,000,000, else `other`; for ar it returns `zero` for 0,
`one` for 1, `two` for 2, `few` for 3-10, `many` for 11-99, else `other`;
for ru, with d = count % 10 and dd = count % 100, it returns `one` iff
d = 1 and dd ≠ 11, `few` iff d ∈ [2,4] and dd ∉ [12,14], `many` iff d = 0
or d ∈ [5,9] or dd ∈ [11,14], else `other`. -/
theorem c1_pluralization_rules (count : Nat) :
    (∀ l ∈ [SupportedLanguage.en, .es, .pt, .de, .nl],
      (pluralizationRule l count = .one ↔ count = 1) ∧
      (pluralizationRule l count = .other ↔ count ≠ 1)) ∧
    (∀ l ∈ [SupportedLanguage.ja, .zh], pluralizationRule l count = .other) ∧
    ((pluralizationRule .fr count = .one ↔ count = 0 ∨ count = 1) ∧
     (pluralizationRule .fr count = .many ↔ 1000000 ≤ count) ∧
     (pluralizationRule .fr count = .other ↔ 2 ≤ count ∧ count < 1000000)) ∧
    ((pluralizationRule .ar count = .zero ↔ count = 0) ∧
     (pluralizationRule .ar count = .one ↔ count = 1) ∧
     (pluralizationRule .ar count = .two ↔ count = 2) ∧
     (pluralizationRule .ar count = .few ↔ 3 ≤ count ∧ count ≤ 10) ∧
     (pluralizationRule .ar count = .many ↔ 11 ≤ count ∧ count ≤ 99) ∧
     (pluralizationRule .ar count = .other ↔ 100 ≤ count)) ∧
    ((pluralizationRule .ru count = .one ↔
        count % 10 = 1 ∧ count % 100 ≠ 11) ∧
     (pluralizationRule .ru count = .few ↔
        (2 ≤ count % 10 ∧ count % 10 ≤ 4) ∧ ¬(12 ≤ count % 100 ∧ count % 100 ≤ 14)) ∧
     (pluralizationRule .ru count = .many ↔
        count % 10 = 0 ∨ (5 ≤ count % 10 ∧ count % 10 ≤ 9) ∨
          (11 ≤ count % 100 ∧ count % 100 ≤ 14)) ∧
     (pluralizationRule .ru count = .other ↔
        ¬(count % 10 = 1 ∧ count % 100 ≠ 11) ∧
        ¬((2 ≤ count % 10 ∧ count % 10 ≤ 4) ∧ ¬(12 ≤ count % 100 ∧ count % 100 ≤ 14)) ∧
        ¬(count % 10 = 0 ∨ (5 ≤ count % 10 ∧ count % 10 ≤ 9) ∨
          (11 ≤ count % 100 ∧ count % 100 ≤ 14)))) := by
  have hmod : count % 100 % 10 = count % 10 :=
    Nat.mod_mod_of_dvd count (by norm_num)
  refine ⟨?_, ?_, ?_, ?_, ?_⟩
  · intro l hl
    fin_cases hl <;>
      constructor <;> constructor <;>
        · simp only [pluralizationRule]
          split_ifs <;> simp_all
  · intro l hl
    fin_cases hl <;> simp [pluralizationRule]
  · refine ⟨?_, ?_, ?_⟩ <;>
      · simp only [pluralizationRule]
        split_ifs <;> (try simp_all) <;> omega
  · refine ⟨?_, ?_, ?_, ?_, ?_, ?_⟩ <;>
      · simp only [pluralizationRule]
        split_ifs <;> (try simp_all) <;> omega
  · refine ⟨?_, ?_, ?_, ?_⟩ <;>
      · simp only [pluralizationRule, ruPluralRule]
        split_ifs <;> (try simp_all) <;> omega

/-- Witness for `c1_pluralization_rules` at count 1 and language `en`. -/
theorem c1_pluralization_rules_witness :
    (pluralizationRule .en 1 = .one ↔ (1 : Nat) = 1) ∧
    (pluralizationRule .en 1 = .other ↔ (1 : Nat) ≠ 1) :=
  (c1_pluralization_rules 1).1 SupportedLanguage.en (by decide)

/-! ## Language configuration table (src/constants/index.ts lines 20-141)

Fields of `LANGUAGE_CONFIG` used by the claims (flag glyph, date format,
country code, plural-category list are omitted: no claim touches them). -/

/-- One `LANGUAGE_CONFIG` entry (the fields the claims use). -/
structure LanguageConfigEntry where
  name : String
  locale : String
  dir : String
  rtlSupport : Bool
deriving DecidableEq, Repr

/-- The language code string of a `SupportedLanguage`. -/
def SupportedLanguage.code : SupportedLanguage → String
  | .en => "en" | .es => "es" | .fr => "fr" | .de => "de" | .pt => "pt"
  | .ja => "ja" | .zh => "zh" | .ar => "ar" | .ru => "ru" | .nl => "nl"

/-- Embedding of `LANGUAGE_CONFIG`, keyed by language code string (JS object
indexing with a code outside the table yields `undefined`, hence `Option`). -/
def languageConfig : String → Option LanguageConfigEntry
  | "en" => some ⟨"English", "en-US", "ltr", false⟩
  | "es" => some ⟨"Spanish", "es-ES", "ltr", false⟩
  | "fr" => some ⟨"French", "fr-FR", "ltr", false⟩
  | "de" => some ⟨"German", "de-DE", "ltr", false⟩
  | "pt" => some ⟨"Portuguese", "pt-BR", "ltr", false⟩
  | "ja" => some ⟨"Japanese", "ja-JP", "ltr", false⟩
  | "zh" => some ⟨"Chinese (Simplified)", "zh-CN", "ltr", false⟩
  | "ar" => some ⟨"Arabic", "ar-SA", "rtl", true⟩
  | "ru" => some ⟨"Russian", "ru-RU", "ltr", false⟩
  | "nl" => some ⟨"Dutch", "nl-NL", "ltr", false⟩
  | _ => none

/-- Embedding of `SUPPORTED_LANGUAGES` as code strings. -/
def supportedLanguagesList : List String :=
  ["en", "es", "fr", "de", "pt", "ja", "zh", "ar", "ru", "nl"]

/-! ## formatList (src/constants/index.ts lines 673-694)

`formatList` first returns early on 0/1 items; otherwise it tries
`Intl.ListFormat` and, when that facility is unavailable (throws), falls
back to a manual join.  The fallback calls `items.pop()`, which REMOVES the
last element from the caller's array.  The embedding therefore returns,
next to the result string, the final state of the caller's `items` array.
`Intl.ListFormat` availability is a parameter: `some fmt` means the
constructor works and formatting delegates to `fmt locale type items`;
`none` means it throws and the manual fallback runs. -/

/-- Result of a `formatList` call: the returned string and the state of the
caller's `items` array after the call. -/
structure FormatListOutcome where
  result : String
  itemsAfter : List String
deriving DecidableEq, Repr

/-- Embedding of `formatList(items, language, style)`. -/
def formatList (items : List String) (language : SupportedLanguage) (style : String)
    (intlListFormat : Option (String → String → List String → String)) : FormatListOutcome :=
  if items.length = 0 then ⟨"", items⟩
  else if items.length = 1 then ⟨items.headD "", items⟩
  else
    let locale := ((languageConfig language.code).map (·.locale)).getD "en-US"
    let ty := if style = "conjunction" then "conjunction" else "disjunction"
    match intlListFormat with
    | some fmt => ⟨fmt locale ty items, items⟩
    | none =>
        let lastItem := (items.getLast?).getD ""
        let remaining := items.dropLast
        let connector := if style = "conjunction" then " and " else " or "
        if remaining.length > 0 then
          ⟨String.intercalate ", " remaining ++ connector ++ lastItem, remaining⟩
        else ⟨lastItem, remaining⟩

/-! ## Theorems for claim C10 -/

/-- C10 (code bug): `formatList` is claimed pure with respect to its input
array, including in the manual fallback path.  The code's fallback calls
`items.pop()`, so on `["a", "b"]` with the locale list-formatting facility
unavailable the caller's array is left as `["a"]` (the last element is
removed), while the returned string is the expected `"a and b"`. -/
theorem c10_formatList_fallback_mutates_items :
    formatList ["a", "b"] .en "conjunction" none =
      ⟨"a and b", ["a"]⟩ ∧ ("a" :: "b" :: []) ≠ ("a" :: []) := by
  constructor
  · rfl
  · simp

/-! ## TranslationService.changeLanguage (src/unnamed/part_005 lines 226-265)

`changeLanguage` first rejects a language that is not in
`config.supportedLanguages` by throwing a PLAIN `Error` (no `code`, no
`language` property attached) — the `I18nError` with code
`LANGUAGE_CHANGE_FAILED` is only created in the `catch` block around the
runtime switch.  The embedding passes the service's mutable state
explicitly and returns it next to the outcome; a thrown error is
`Except.error`.  `runtimeChangeOk` models whether the awaited
`i18n.changeLanguage` call succeeds. -/

/-- A thrown JS error: either a plain `Error`, or an `I18nError` carrying a
`code` and a `language` property. -/
inductive JsError where
  | plainError (message : String)
  | i18nCoded (message : String) (code : String) (language : String)
deriving DecidableEq, Repr

/-- The `code` property of a thrown error (`none` for a plain `Error`). -/
def JsError.codeOf : JsError → Option String
  | .plainError _ => none
  | .i18nCoded _ c _ => some c

/-- The `language` property of a thrown error (`none` for a plain `Error`). -/
def JsError.languageOf : JsError → Option String
  | .plainError _ => none
  | .i18nCoded _ _ l => some l

/-- The TranslationService state mutated by `changeLanguage`: the runtime's
current language, the in-memory translation cache, the document attributes
and classes, the persisted preference and the emitted events. -/
structure TranslationServiceState where
  currentLanguage : String
  translationCache : List (String × String)
  docLang : Option String
  docDir : Option String
  htmlClassRtl : Bool
  htmlClassLtr : Bool
  storedLanguage : Option String
  dispatchedEvents : List String
deriving DecidableEq, Repr

/-- The slice of `TranslationServiceConfig` that `changeLanguage` reads. -/
structure TranslationServiceConfig where
  defaultLanguage : String
  fallbackLanguage : String
  supportedLanguages : List String
  cachingEnabled : Bool
deriving DecidableEq, Repr

/-- The default service configuration built in the constructor
(src/unnamed/part_005 lines 39-69), restricted to the fields above. -/
def defaultServiceConfig : TranslationServiceConfig :=
  ⟨"en", "en", supportedLanguagesList, true⟩

/-- Embedding of `TranslationService.changeLanguage`.  Order of effects in
the success path follows the source: runtime switch, document `lang` and
`dir` attributes, RTL/LTR class toggling, stored preference, cache clear,
`languageChanged` event.  If the runtime switch throws, the `catch` block
wraps it into an `I18nError` with code `LANGUAGE_CHANGE_FAILED` and the
offending language attached. -/
def changeLanguage (config : TranslationServiceConfig) (language : String)
    (runtimeChangeOk : Bool) (st : TranslationServiceState) :
    Except JsError Unit × TranslationServiceState :=
  if ¬ (language ∈ config.supportedLanguages) then
    (.error (.plainError ("Language \"" ++ language ++ "\" is not supported")), st)
  else if ¬ (runtimeChangeOk = true) then
    (.error (.i18nCoded ("Failed to change language to \"" ++ language ++ "\"")
      "LANGUAGE_CHANGE_FAILED" language), st)
  else
    match languageConfig language with
    | some langCfg =>
        (.ok (), { st with
          currentLanguage := language
          docLang := some language
          docDir := some langCfg.dir
          htmlClassRtl := langCfg.rtlSupport
          htmlClassLtr := ¬ langCfg.rtlSupport
          storedLanguage := some language
          translationCache := []
          dispatchedEvents := st.dispatchedEvents ++ ["languageChanged:" ++ language] })
    | none =>
        -- A supported language missing from LANGUAGE_CONFIG would throw while
        -- reading `langConfig.dir`, after `document.documentElement.lang` was
        -- already assigned; the catch block then wraps it.
        (.error (.i18nCoded ("Failed to change language to \"" ++ language ++ "\"")
          "LANGUAGE_CHANGE_FAILED" language), { st with docLang := some language })

/-! ## Theorems for claim C2 -/

/-- A concrete pre-call service state used in the C2 counterexample. -/
def sampleServiceState : TranslationServiceState :=
  ⟨"en", [("hello|en|common||" ++ "|", "Hello")], some "en", some "ltr",
    false, true, some "en", []⟩

/-- C2 counterexample: the claim says `changeLanguage` on an unsupported
code throws an error with code `LANGUAGE_CHANGE_FAILED` and the language
attached.  At the concrete unsupported code `"xx"` the thrown error is a
plain `Error` whose `code` and `language` properties are absent, refuting
the claim as stated (the state, however, is indeed left unchanged). -/
theorem c2_unsupported_language_error_has_no_code :
    (changeLanguage defaultServiceConfig "xx" true sampleServiceState).1 =
      .error (.plainError "Language \"xx\" is not supported") ∧
    (∀ e, (changeLanguage defaultServiceConfig "xx" true sampleServiceState).1 = .error e →
      JsError.codeOf e ≠ some "LANGUAGE_CHANGE_FAILED") ∧
    (changeLanguage defaultServiceConfig "xx" true sampleServiceState).2 =
      sampleServiceState := by
  have h : changeLanguage defaultServiceConfig "xx" true sampleServiceState =
      (.error (.plainError "Language \"xx\" is not supported"), sampleServiceState) := rfl
  refine ⟨by rw [h], ?_, by rw [h]⟩
  intro e he
  rw [h] at he
  simp only [Except.error.injEq] at he
  subst he
  decide

/-- C2 amended: for every language code not in the configured
supported-language list, `changeLanguage` throws a PLAIN error whose
message names the language — with no `LANGUAGE_CHANGE_FAILED` code and no
`language` property attached — and leaves the service state unchanged: the
current language is not mutated and the translation cache is not
cleared. -/
theorem c2_change_language_rejects_unsupported (config : TranslationServiceConfig)
    (language : String) (runtimeChangeOk : Bool) (st : TranslationServiceState)
    (h : language ∉ config.supportedLanguages) :
    changeLanguage config language runtimeChangeOk st =
      (.error (.plainError ("Language \"" ++ language ++ "\" is not supported")), st) ∧
    (∀ e, (changeLanguage config language runtimeChangeOk st).1 = .error e →
      JsError.codeOf e = none ∧ JsError.languageOf e = none) ∧
    (changeLanguage config language runtimeChangeOk st).2.currentLanguage =
      st.currentLanguage ∧
    (changeLanguage config language runtimeChangeOk st).2.translationCache =
      st.translationCache := by
  have hrun : changeLanguage config language runtimeChangeOk st =
      (.error (.plainError ("Language \"" ++ language ++ "\" is not supported")), st) := by
    simp [changeLanguage, h]
  refine ⟨hrun, ?_, by rw [hrun], by rw [hrun]⟩
  intro e he
  rw [hrun] at he
  simp only [Except.error.injEq] at he
  subst he
  exact ⟨rfl, rfl⟩

/-- Witness for `c2_change_language_rejects_unsupported` at the concrete
unsupported code `"xx"`. -/
theorem c2_change_language_rejects_unsupported_witness :
    changeLanguage defaultServiceConfig "xx" true sampleServiceState =
      (.error (.plainError "Language \"xx\" is not supported"), sampleServiceState) :=
  (c2_change_language_rejects_unsupported defaultServiceConfig "xx" true
    sampleServiceState (by decide)).1

/-! ## RTLService.transformCSSClasses (src/rtl/index.tsx lines 159-213)

The source rewrites a whitespace-separated class string through a fixed
sequence of global regex replacements, using `__TEMP_..._` placeholder
substrings so that a freshly produced class is not re-swapped inside the
same pair's pass.  Classes contain no whitespace and every pattern is
word-bounded (`\b`), so a replacement never spans two classes: the
string-level pipeline is the per-token pipeline mapped over the token
list.  `RtlTok` enumerates the directional class shapes the regexes
recognise, the intermediate placeholder shapes they create, and
`otherClass` for any class that matches none of the patterns and contains
none of the placeholder substrings (such a class is untouched by every
replacement).  Each `replace...` definition below is one `.replace(...)`
call, written as its action on each token shape; the interesting case is
the numeric border classes: `\bborder-r\b` matches the `border-r` prefix
of `border-r-N` (the following `-` is a word boundary), so `border-r-N`
becomes the hybrid `__TEMP_BORDER_L__-N` (`tempBorderLHyph`). -/

/-- A CSS class token, including the intermediate placeholder shapes. -/
inductive RtlTok where
  | flexRow | flexRowReverse | textLeft | textRight | floatLeft | floatRight
  | ml (n : Nat) | mr (n : Nat) | pl (n : Nat) | pr (n : Nat)
  | borderL | borderR | borderLN (n : Nat) | borderRN (n : Nat)
  | leftN (n : Nat) | rightN (n : Nat)
  | tempFlexRow | tempTextLeft | tempFloatLeft
  | tempMl (n : Nat) | tempPl (n : Nat)
  | tempBorderL | tempBorderLHyph (n : Nat) | tempBorderLN (n : Nat)
  | tempLeftN (n : Nat)
  | otherClass (s : String)
deriving DecidableEq, Repr

/-- A token is real when it is an actual CSS class, not a placeholder
produced mid-pipeline (a caller's class string never contains the
`__TEMP_...__` placeholder text). -/
def RtlTok.isReal : RtlTok → Bool
  | .tempFlexRow | .tempTextLeft | .tempFloatLeft => false
  | .tempMl _ | .tempPl _ => false
  | .tempBorderL | .tempBorderLHyph _ | .tempBorderLN _ => false
  | .tempLeftN _ => false
  | _ => true

/-- Replace `\bflex-row-reverse\b` with `__TEMP_FLEX_ROW__`. -/
def replaceFlexRowReverseToTemp : RtlTok → RtlTok
  | .flexRowReverse => .tempFlexRow
  | t => t

/-- Replace `\bflex-row\b` with `flex-row-reverse`. -/
def replaceFlexRowToReverse : RtlTok → RtlTok
  | .flexRow => .flexRowReverse
  | t => t

/-- Replace `__TEMP_FLEX_ROW__` with `flex-row`. -/
def replaceTempToFlexRow : RtlTok → RtlTok
  | .tempFlexRow => .flexRow
  | t => t

/-- Replace `\btext-right\b` with `__TEMP_TEXT_LEFT__`. -/
def replaceTextRightToTemp : RtlTok → RtlTok
  | .textRight => .tempTextLeft
  | t => t

/-- Replace `\btext-left\b` with `text-right`. -/
def replaceTextLeftToRight : RtlTok → RtlTok
  | .textLeft => .textRight
  | t => t

/-- Replace `__TEMP_TEXT_LEFT__` with `text-left`. -/
def replaceTempToTextLeft : RtlTok → RtlTok
  | .tempTextLeft => .textLeft
  | t => t

/-- Replace `\bfloat-right\b` with `__TEMP_FLOAT_LEFT__`. -/
def replaceFloatRightToTemp : RtlTok → RtlTok
  | .floatRight => .tempFloatLeft
  | t => t

/-- Replace `\bfloat-left\b` with `float-right`. -/
def replaceFloatLeftToRight : RtlTok → RtlTok
  | .floatLeft => .floatRight
  | t => t

/-- Replace `__TEMP_FLOAT_LEFT__` with `float-left`. -/
def replaceTempToFloatLeft : RtlTok → RtlTok
  | .tempFloatLeft => .floatLeft
  | t => t

/-- Replace `\bmr-(\d+)\b` with `__TEMP_ML_$1__`. -/
def replaceMrToTemp : RtlTok → RtlTok
  | .mr n => .tempMl n
  | t => t

/-- Replace `\bml-(\d+)\b` with `mr-$1`. -/
def replaceMlToMr : RtlTok → RtlTok
  | .ml n => .mr n
  | t => t

/-- Replace `__TEMP_ML_(\d+)__` with `ml-$1`. -/
def replaceTempToMl : RtlTok → RtlTok
  | .tempMl n => .ml n
  | t => t

/-- Replace `\bpr-(\d+)\b` with `__TEMP_PL_$1__`. -/
def replacePrToTemp : RtlTok → RtlTok
  | .pr n => .tempPl n
  | t => t

/-- Replace `\bpl-(\d+)\b` with `pr-$1`. -/
def replacePlToPr : RtlTok → RtlTok
  | .pl n => .pr n
  | t => t

/-- Replace `__TEMP_PL_(\d+)__` with `pl-$1`. -/
def replaceTempToPl : RtlTok → RtlTok
  | .tempPl n => .pl n
  | t => t

/-- Replace `\bborder-r\b` with `__TEMP_BORDER_L__`.  The pattern also
matches the `border-r` prefix of `border-r-N` (the hyphen before the
digits is a word boundary), turning it into the hybrid
`__TEMP_BORDER_L__-N`. -/
def replaceBorderRToTemp : RtlTok → RtlTok
  | .borderR => .tempBorderL
  | .borderRN n => .tempBorderLHyph n
  | t => t

/-- Replace `\bborder-l\b` with `border-r`.  The pattern also matches the
`border-l` prefix of `border-l-N`, turning it into `border-r-N`. -/
def replaceBorderLToR : RtlTok → RtlTok
  | .borderL => .borderR
  | .borderLN n => .borderRN n
  | t => t

/-- Replace `__TEMP_BORDER_L__` with `border-l`; on the hybrid
`__TEMP_BORDER_L__-N` this yields `border-l-N`. -/
def replaceTempToBorderL : RtlTok → RtlTok
  | .tempBorderL => .borderL
  | .tempBorderLHyph n => .borderLN n
  | t => t

/-- Replace `\bborder-r-(\d+)\b` with `__TEMP_BORDER_L_$1__`. -/
def replaceBorderRNToTemp : RtlTok → RtlTok
  | .borderRN n => .tempBorderLN n
  | t => t

/-- Replace `\bborder-l-(\d+)\b` with `border-r-$1`. -/
def replaceBorderLNToRN : RtlTok → RtlTok
  | .borderLN n => .borderRN n
  | t => t

/-- Replace `__TEMP_BORDER_L_(\d+)__` with `border-l-$1`. -/
def replaceTempToBorderLN : RtlTok → RtlTok
  | .tempBorderLN n => .borderLN n
  | t => t

/-- Replace `\bright-(\d+)\b` with `__TEMP_LEFT_$1__`. -/
def replaceRightNToTemp : RtlTok → RtlTok
  | .rightN n => .tempLeftN n
  | t => t

/-- Replace `\bleft-(\d+)\b` with `right-$1`. -/
def replaceLeftNToRightN : RtlTok → RtlTok
  | .leftN n => .rightN n
  | t => t

/-- Replace `__TEMP_LEFT_(\d+)__` with `left-$1`. -/
def replaceTempToLeftN : RtlTok → RtlTok
  | .tempLeftN n => .leftN n
  | t => t

/-- The mirror-layout replacement chain (flex direction, text alignment,
float), in source order. -/
def mirrorSteps (t : RtlTok) : RtlTok :=
  replaceTempToFloatLeft (replaceFloatLeftToRight (replaceFloatRightToTemp
    (replaceTempToTextLeft (replaceTextLeftToRight (replaceTextRightToTemp
      (replaceTempToFlexRow (replaceFlexRowToReverse (replaceFlexRowReverseToTemp t))))))))

/-- The spacing replacement chain (margins, paddings, borders, positions),
in source order. -/
def spacingSteps (t : RtlTok) : RtlTok :=
  replaceTempToLeftN (replaceLeftNToRightN (replaceRightNToTemp
    (replaceTempToBorderLN (replaceBorderLNToRN (replaceBorderRNToTemp
      (replaceTempToBorderL (replaceBorderLToR (replaceBorderRToTemp
        (replaceTempToPl (replacePlToPr (replacePrToTemp
          (replaceTempToMl (replaceMlToMr (replaceMrToTemp t))))))))))))))

/-- Text direction. -/
inductive Direction where
  | ltr | rtl
deriving DecidableEq, Repr

/-- Embedding of `RTLService.transformCSSClasses(classes, options)`: no-op
when the current direction is `ltr`; otherwise the mirror chain (when
`mirrorLayout`) then the spacing chain (when `adjustSpacing`), each a
whole-string replacement sequence and hence a map over the tokens. -/
def transformCSSClasses (currentDirection : Direction)
    (mirrorLayout adjustSpacing : Bool) (classes : List RtlTok) : List RtlTok :=
  if currentDirection = .ltr then classes
  else
    let afterMirror := if mirrorLayout then classes.map mirrorSteps else classes
    if adjustSpacing then afterMirror.map spacingSteps else afterMirror

/-! ## Theorems for claim C7 -/

/-- Helper for C7: one full RTL pass applied twice is the identity on every
real token. -/
theorem rtl_double_pass_token (t : RtlTok) (h : t.isReal = true) :
    spacingSteps (mirrorSteps (spacingSteps (mirrorSteps t))) = t := by
  cases t <;> first
    | rfl
    | simp [RtlTok.isReal] at h

/-- Helper for C7: the double RTL pass, written as the four mapped
replacement chains, restores every list of real tokens. -/
theorem rtl_double_pass_list (classes : List RtlTok)
    (hreal : ∀ t ∈ classes, t.isReal = true) :
    (((classes.map mirrorSteps).map spacingSteps).map mirrorSteps).map spacingSteps
      = classes := by
  induction classes with
  | nil => rfl
  | cons t ts ih =>
      simp only [List.map_cons]
      rw [ih (fun x hx => hreal x (List.mem_cons_of_mem _ hx)),
        rtl_double_pass_token t (hreal t (List.mem_cons_self t ts))]

/-- C7 counterexample: the claim says the RTL transform swaps `border-l-N`
with `border-r-N`.  On the concrete class `border-l-2` under RTL with both
options enabled, the transform returns `border-l-2` unchanged (the bare
`border-l` rule first rewrites it to `border-r-2`, which the numeric rule
then swaps straight back), so the numeric border pair is never swapped. -/
theorem c7_numeric_border_classes_not_swapped :
    transformCSSClasses .rtl true true [.borderLN 2] = [.borderLN 2] ∧
    transformCSSClasses .rtl true true [.borderRN 2] = [.borderRN 2] ∧
    ([RtlTok.borderLN 2] ≠ [RtlTok.borderRN 2]) := by
  refine ⟨rfl, rfl, by decide⟩

/-- C7 amended: when the current direction is `ltr` the transform is the
identity on every class string; when it is `rtl` (with mirrorLayout and
adjustSpacing enabled) it swaps each directional class pair bidirectionally
and collision-safely — flex-row with flex-row-reverse, text-left with
text-right, float-left with float-right, ml-N with mr-N, pl-N with pr-N,
bare border-l with border-r, left-N with right-N — while the NUMERIC
border classes border-l-N and border-r-N are left unchanged (not swapped);
applying the transform twice in a row under RTL yields the original class
string. -/
theorem c7_transform_css_classes (classes : List RtlTok)
    (hreal : ∀ t ∈ classes, t.isReal = true) :
    (∀ m a, transformCSSClasses .ltr m a classes = classes) ∧
    (∀ n : Nat,
      transformCSSClasses .rtl true true [.flexRow] = [.flexRowReverse] ∧
      transformCSSClasses .rtl true true [.flexRowReverse] = [.flexRow] ∧
      transformCSSClasses .rtl true true [.textLeft] = [.textRight] ∧
      transformCSSClasses .rtl true true [.textRight] = [.textLeft] ∧
      transformCSSClasses .rtl true true [.floatLeft] = [.floatRight] ∧
      transformCSSClasses .rtl true true [.floatRight] = [.floatLeft] ∧
      transformCSSClasses .rtl true true [.ml n] = [.mr n] ∧
      transformCSSClasses .rtl true true [.mr n] = [.ml n] ∧
      transformCSSClasses .rtl true true [.pl n] = [.pr n] ∧
      transformCSSClasses .rtl true true [.pr n] = [.pl n] ∧
      transformCSSClasses .rtl true true [.borderL] = [.borderR] ∧
      transformCSSClasses .rtl true true [.borderR] = [.borderL] ∧
      transformCSSClasses .rtl true true [.leftN n] = [.rightN n] ∧
      transformCSSClasses .rtl true true [.rightN n] = [.leftN n] ∧
      transformCSSClasses .rtl true true [.borderLN n] = [.borderLN n] ∧
      transformCSSClasses .rtl true true [.borderRN n] = [.borderRN n]) ∧
    transformCSSClasses .rtl true true
      (transformCSSClasses .rtl true true classes) = classes := by
  refine ⟨fun m a => rfl, fun n => ?_, ?_⟩
  · refine ⟨rfl, rfl, rfl, rfl, rfl, rfl, rfl, rfl, rfl, rfl, rfl, rfl, rfl, rfl, rfl, rfl⟩
  · simpa [transformCSSClasses] using rtl_double_pass_list classes hreal

/-- Witness for `c7_transform_css_classes` on the concrete class string
`text-left ml-4 flex-row`. -/
theorem c7_transform_css_classes_witness :
    transformCSSClasses .rtl true true
      (transformCSSClasses .rtl true true [.textLeft, .ml 4, .flexRow]) =
      [.textLeft, .ml 4, .flexRow] :=
  (c7_transform_css_classes [.textLeft, .ml 4, .flexRow] (by decide)).2.2

/-! ## CV data model and JS truthiness

The regional-localization components read a `ParsedCV` through JS
truthiness checks: `undefined`, `null`, `0` and `""` are falsy; every
object and array (also an empty one) is truthy. -/

/-- Truthiness of an optional string (`undefined` and `""` are falsy). -/
def jsTruthyStr : Option String → Bool
  | some s => s ≠ ""
  | none => false

/-- Truthiness of an optional number (`undefined` and `0` are falsy). -/
def jsTruthyNat : Option Nat → Bool
  | some n => n ≠ 0
  | none => false

/-- Truthiness of an optional rational (`undefined` and `0` are falsy). -/
def jsTruthyRat : Option ℚ → Bool
  | some q => q ≠ 0
  | none => false

/-- The personal-info block of a CV (both the `personalInfo` and the
alternative `personal` shape use these fields). -/
structure PersonalInfo where
  photo : Option String
  age : Option Nat
  dateOfBirth : Option String
  maritalStatus : Option String
  gender : Option String
  nationality : Option String
  religion : Option String
  politicalAffiliation : Option String
  sexualOrientation : Option String
deriving DecidableEq, Repr

/-- A personal-info block with every field absent (the `{}` fallback). -/
def emptyPersonalInfo : PersonalInfo :=
  ⟨none, none, none, none, none, none, none, none, none⟩

/-- The slice of `ParsedCV` the regional-localization components read. -/
structure ParsedCV where
  personalInfo : Option PersonalInfo
  personal : Option PersonalInfo
  experience : Option (List String)
  education : Option (List String)
  skills : Option (List String)
  certifications : Option (List String)
  languages : Option (List String)
  references : Option (List String)
deriving DecidableEq, Repr

/-- Embedding of `cvData.personalInfo || cvData.personal || {}` (objects
are truthy, so the first present block wins). -/
def personalInfoOrPersonal (cv : ParsedCV) : PersonalInfo :=
  match cv.personalInfo with
  | some pi => pi
  | none =>
      match cv.personal with
      | some p => p
      | none => emptyPersonalInfo

/-- Embedding of the shared helper
`hasPhoto = !!(cvData.personalInfo?.photo || cvData.personal?.photo)`. -/
def hasPhoto (cv : ParsedCV) : Bool :=
  jsTruthyStr (cv.personalInfo.bind (·.photo)) ||
    jsTruthyStr (cv.personal.bind (·.photo))

/-! ## Regional configuration model (the fields the claims use) -/

/-- `RegionalConfiguration.formatPreferences`. -/
structure FormatPreferences where
  photoRequired : Option Bool
  preferredLength : Option ℚ
  dateFormat : Option String
deriving DecidableEq, Repr

/-- `RegionalConfiguration.contentGuidelines`. -/
structure ContentGuidelines where
  requiredSections : Option (List String)
  discouragedSections : Option (List String)
deriving DecidableEq, Repr

/-- `RegionalConfiguration.languageGuidelines`. -/
structure LanguageGuidelines where
  formalityLevel : Option String
  preferredTerminology : Option (List String)
  cvTerminology : Option String
deriving DecidableEq, Repr

/-- `RegionalConfiguration.legalRestrictions`. -/
structure LegalRestrictions where
  prohibitedInfo : Option (List String)
  photoRequired : Option Bool
deriving DecidableEq, Repr

/-- One entry of `jobMarket.topIndustries`. -/
structure IndustryEntry where
  industry : String
deriving DecidableEq, Repr

/-- `RegionalConfiguration.jobMarket`. -/
structure JobMarket where
  topIndustries : Option (List IndustryEntry)
  averageTimeToHire : Option ℚ
deriving DecidableEq, Repr

/-- `RegionalConfiguration.culturalFactors` (the field the claims use). -/
structure CulturalFactors where
  networkingImportance : Option ℚ
deriving DecidableEq, Repr

/-- `RegionalConfiguration.technologyLandscape` (the field the claims
use). -/
structure TechnologyLandscape where
  remoteWorkAcceptance : Option ℚ
deriving DecidableEq, Repr

/-- The slice of `RegionalConfiguration` the verified components read. -/
structure RegionalConfiguration where
  regionId : String
  regionName : String
  currency : Option String
  formatPreferences : Option FormatPreferences
  contentGuidelines : Option ContentGuidelines
  languageGuidelines : Option LanguageGuidelines
  legalRestrictions : Option LegalRestrictions
  culturalFactors : Option CulturalFactors
  jobMarket : Option JobMarket
  technologyLandscape : Option TechnologyLandscape
deriving DecidableEq, Repr

/-! ## ComplianceChecker (src/unnamed/part_007 lines 9-117) -/

/-- A typed compliance issue. -/
structure ComplianceIssue where
  type : String
  severity : String
  description : String
  solution : String
  countries : List String
deriving DecidableEq, Repr

/-- Embedding of `ComplianceChecker.checkProhibitedInfo(cvData,
prohibitedType, region)`: the `switch` on the prohibited category.  The
`personal_info` case scans `religion`, `politicalAffiliation`,
`sexualOrientation` in order and reports the first present one. -/
def checkProhibitedInfo (cv : ParsedCV) (prohibitedType : String)
    (region : String) : Option ComplianceIssue :=
  if prohibitedType = "age" then
    if jsTruthyNat (personalInfoOrPersonal cv).age || jsTruthyStr (personalInfoOrPersonal cv).dateOfBirth then
      some ⟨"age", "error", "Age or date of birth information found",
        "Remove age and date of birth information to comply with anti-discrimination laws",
        [region]⟩
    else none
  else if prohibitedType = "marital_status" then
    if jsTruthyStr (personalInfoOrPersonal cv).maritalStatus then
      some ⟨"marital_status", "warning", "Marital status information found",
        "Remove marital status information as it is not relevant for job applications",
        [region]⟩
    else none
  else if prohibitedType = "photo" then
    if hasPhoto cv then
      some ⟨"photo", "warning", "Photo found on CV",
        "Consider removing photo to prevent unconscious bias in hiring process",
        [region]⟩
    else none
  else if prohibitedType = "gender" then
    if jsTruthyStr (personalInfoOrPersonal cv).gender then
      some ⟨"gender", "error", "Gender information found",
        "Remove gender information to comply with equal opportunity laws",
        [region]⟩
    else none
  else if prohibitedType = "personal_info" then
    if jsTruthyStr (personalInfoOrPersonal cv).religion then
      some ⟨"personal_info", "error", "Sensitive personal information found: religion",
        "Remove religion information as it is protected under employment law", [region]⟩
    else if jsTruthyStr (personalInfoOrPersonal cv).politicalAffiliation then
      some ⟨"personal_info", "error",
        "Sensitive personal information found: politicalAffiliation",
        "Remove politicalAffiliation information as it is protected under employment law",
        [region]⟩
    else if jsTruthyStr (personalInfoOrPersonal cv).sexualOrientation then
      some ⟨"personal_info", "error",
        "Sensitive personal information found: sexualOrientation",
        "Remove sexualOrientation information as it is protected under employment law",
        [region]⟩
    else none
  else none

/-- Result of a legal-compliance check. -/
structure ComplianceResult where
  compliant : Bool
  issues : List ComplianceIssue
  recommendations : List String
deriving DecidableEq, Repr

/-- Embedding of `ComplianceChecker.checkLegalCompliance(cvData,
regionConfig)`: one issue attempt per configured prohibited category, a
recommendation per issue (the issue's solution), the extra photo-removal
recommendation when `legalRestrictions?.photoRequired === false` and the
CV has a photo, and `compliant` true iff no error-severity issue. -/
def checkLegalCompliance (cv : ParsedCV) (rc : RegionalConfiguration) :
    ComplianceResult :=
  let prohibitedInfo := (rc.legalRestrictions.bind (·.prohibitedInfo)).getD []
  let issues := prohibitedInfo.filterMap
    (fun info => checkProhibitedInfo cv info rc.regionName)
  let recommendations := issues.map (·.solution)
  let recommendations :=
    if (rc.legalRestrictions.bind (·.photoRequired)) = some false ∧ hasPhoto cv = true then
      recommendations ++ ["Consider removing photo as it may lead to unconscious bias"]
    else recommendations
  ⟨decide ((issues.filter (fun i => i.severity = "error")).length = 0),
    issues, recommendations⟩

/-! ## Theorems for claim C4 -/

/-- Helper for C4: an issue produced by `checkProhibitedInfo` carries the
prohibited category it was produced for as its `type`. -/
theorem checkProhibitedInfo_type (cv : ParsedCV) (t r : String)
    (i : ComplianceIssue) (h : checkProhibitedInfo cv t r = some i) :
    i.type = t := by
  unfold checkProhibitedInfo at h
  split_ifs at h <;>
    first
      | exact Option.noConfusion h
      | (injection h with hh; subst hh; simp_all)

/-- Helper for C4: the issue list of a prohibited-category list that does
not mention `"age"` contains no age-typed issue. -/
theorem no_age_issue_of_count_zero (cv : ParsedCV) (r : String)
    (l : List String) (h : l.count "age" = 0) :
    (l.filterMap (fun t => checkProhibitedInfo cv t r)).filter
      (fun i => i.type = "age") = [] := by
  induction l with
  | nil => rfl
  | cons t ts ih =>
      rw [List.count_cons] at h
      have ht : t ≠ "age" := by
        intro he; subst he; simp at h
      have hts : ts.count "age" = 0 := by
        omega
      rw [List.filterMap_cons]
      cases hc : checkProhibitedInfo cv t r with
      | none => exact ih hts
      | some i =>
          have : i.type = t := checkProhibitedInfo_type cv t r i hc
          rw [List.filter_cons]
          simp only [this, ht, decide_eq_true_eq, if_neg ht]
          exact ih hts

/-- The age compliance issue produced for a region. -/
def ageIssueFor (region : String) : ComplianceIssue :=
  ⟨"age", "error", "Age or date of birth information found",
    "Remove age and date of birth information to comply with anti-discrimination laws",
    [region]⟩

/-- Helper for C4: on a prohibited-category list mentioning `"age"` exactly
once, a CV whose selected personal-info block has a truthy age or
date-of-birth yields exactly one age-typed issue: the error-severity age
issue. -/
theorem age_issue_singleton (cv : ParsedCV) (r : String) (l : List String)
    (hcount : l.count "age" = 1)
    (hage : jsTruthyNat (personalInfoOrPersonal cv).age = true ∨
      jsTruthyStr (personalInfoOrPersonal cv).dateOfBirth = true) :
    (l.filterMap (fun t => checkProhibitedInfo cv t r)).filter
      (fun i => i.type = "age") = [ageIssueFor r] := by
  have hbool : (jsTruthyNat (personalInfoOrPersonal cv).age ||
      jsTruthyStr (personalInfoOrPersonal cv).dateOfBirth) = true := by
    rcases hage with h | h <;> simp [h]
  induction l with
  | nil => simp at hcount
  | cons t ts ih =>
      rw [List.count_cons] at hcount
      by_cases ht : t = "age"
      · subst ht
        have hts : ts.count "age" = 0 := by
          simp at hcount; omega
        have hhead : checkProhibitedInfo cv "age" r = some (ageIssueFor r) := by
          unfold checkProhibitedInfo
          simp [hbool, ageIssueFor]
        rw [List.filterMap_cons, hhead, List.filter_cons]
        simp only [ageIssueFor, decide_eq_true_eq, if_pos rfl]
        rw [no_age_issue_of_count_zero cv r ts hts]
        simp [ageIssueFor]
      · have hts : ts.count "age" = 1 := by
          simp [ht] at hcount; omega
        rw [List.filterMap_cons]
        cases hc : checkProhibitedInfo cv t r with
        | none => exact ih hts
        | some i =>
            have hit : i.type = t := checkProhibitedInfo_type cv t r i hc
            rw [List.filter_cons]
            simp only [hit, decide_eq_true_eq, if_neg ht]
            exact ih hts

/-- Helper for C4 and C6: `compliant` is true iff no produced issue has
error severity. -/
theorem compliant_iff_no_error (cv : ParsedCV) (rc : RegionalConfiguration) :
    (checkLegalCompliance cv rc).compliant = true ↔
      ∀ i ∈ (checkLegalCompliance cv rc).issues, i.severity ≠ "error" := by
  simp [checkLegalCompliance, List.length_eq_zero, List.filter_eq_nil_iff]

/-- C4: for every CV and region configuration, `checkLegalCompliance`
returns `compliant = true` iff the produced issue list contains no issue
of severity `error`; and if the region's prohibited-info list (taken
duplicate-free, as a set of categories) includes `age` and the CV's
personal-info has a truthy age or date-of-birth value, the result contains
exactly one issue with category `age` — the error-severity age issue — and
`compliant = false`. -/
theorem c4_check_legal_compliance (cv : ParsedCV) (rc : RegionalConfiguration) :
    ((checkLegalCompliance cv rc).compliant = true ↔
      ∀ i ∈ (checkLegalCompliance cv rc).issues, i.severity ≠ "error") ∧
    (((rc.legalRestrictions.bind (·.prohibitedInfo)).getD []).Nodup →
      "age" ∈ (rc.legalRestrictions.bind (·.prohibitedInfo)).getD [] →
      (jsTruthyNat (personalInfoOrPersonal cv).age = true ∨
        jsTruthyStr (personalInfoOrPersonal cv).dateOfBirth = true) →
      ((checkLegalCompliance cv rc).issues.filter (fun i => i.type = "age") =
          [ageIssueFor rc.regionName] ∧
        (ageIssueFor rc.regionName).severity = "error" ∧
        (checkLegalCompliance cv rc).compliant = false)) := by
  constructor
  · exact compliant_iff_no_error cv rc
  · intro hnodup hmem hage
    have hcount : ((rc.legalRestrictions.bind (·.prohibitedInfo)).getD []).count "age" = 1 :=
      List.count_eq_one_of_mem hnodup hmem
    have hsing := age_issue_singleton cv rc.regionName _ hcount hage
    have hissues : (checkLegalCompliance cv rc).issues =
        ((rc.legalRestrictions.bind (·.prohibitedInfo)).getD []).filterMap
          (fun info => checkProhibitedInfo cv info rc.regionName) := rfl
    refine ⟨by rw [hissues]; exact hsing, rfl, ?_⟩
    have hmem2 : ageIssueFor rc.regionName ∈ (checkLegalCompliance cv rc).issues := by
      rw [hissues]
      have : ageIssueFor rc.regionName ∈
          (((rc.legalRestrictions.bind (·.prohibitedInfo)).getD []).filterMap
            (fun info => checkProhibitedInfo cv info rc.regionName)).filter
            (fun i => i.type = "age") := by
        rw [hsing]; exact List.mem_singleton_self _
      exact List.mem_of_mem_filter this
    have herr : ¬ ∀ i ∈ (checkLegalCompliance cv rc).issues, i.severity ≠ "error" := by
      intro h
      exact h _ hmem2 rfl
    cases hcompl : (checkLegalCompliance cv rc).compliant with
    | false => rfl
    | true =>
        exact absurd ((compliant_iff_no_error cv rc).mp hcompl) herr

/-- Witness for `c4_check_legal_compliance`: a CV whose personal-info has
an age value against a region configuration prohibiting `age`. -/
theorem c4_check_legal_compliance_witness :
    ((checkLegalCompliance
        ⟨some { emptyPersonalInfo with age := some 30 }, none, none, none,
          none, none, none, none⟩
        ⟨"us", "US", none, none, none, none,
          some ⟨some ["age", "marital_status", "photo"], some false⟩,
          none, none, none⟩).issues.filter (fun i => i.type = "age") =
        [ageIssueFor "US"] ∧
      (ageIssueFor "US").severity = "error" ∧
      (checkLegalCompliance
        ⟨some { emptyPersonalInfo with age := some 30 }, none, none, none,
          none, none, none, none⟩
        ⟨"us", "US", none, none, none, none,
          some ⟨some ["age", "marital_status", "photo"], some false⟩,
          none, none, none⟩).compliant = false) :=
  (c4_check_legal_compliance
    ⟨some { emptyPersonalInfo with age := some 30 }, none, none, none,
      none, none, none, none⟩
    ⟨"us", "US", none, none, none, none,
      some ⟨some ["age", "marital_status", "photo"], some false⟩,
      none, none, none⟩).2 (by decide) (by decide) (Or.inl (by decide))

/-! ## Shared helpers of the regional-localization components

`estimateCVLength`, `hasSectionContent`, `assessFormality`,
`checkDateFormat` and `checkTerminology` are duplicated verbatim between
`RegionalScoreCalculator` and `CulturalOptimizer` in the source; the
embedding defines each once. -/

/-- JS `x || d` on an optional string (`undefined` and `""` fall back). -/
def jsOrStr (o : Option String) (d : String) : String :=
  if jsTruthyStr o then o.getD d else d

/-- JS `x || d` on an optional number (`undefined` and `0` fall back). -/
def jsOrRat (o : Option ℚ) (d : ℚ) : ℚ :=
  if jsTruthyRat o then o.getD d else d

/-- Embedding of `estimateCVLength`: weighted content contributions
(personal info 0.2, 0.3 per experience entry, 0.15 per education entry,
skills presence 0.2), ceiled, at least 1 page.  JS truthiness: an array is
truthy even when empty, so presence is `isSome`. -/
def estimateCVLength (cv : ParsedCV) : ℚ :=
  let contentLength : ℚ := 0
  let contentLength :=
    if cv.personalInfo.isSome then contentLength + 0.2 else contentLength
  let contentLength :=
    if cv.experience.isSome then
      contentLength + ((cv.experience.getD []).length : ℚ) * 0.3
    else contentLength
  let contentLength :=
    if cv.education.isSome then
      contentLength + ((cv.education.getD []).length : ℚ) * 0.15
    else contentLength
  let contentLength :=
    if cv.skills.isSome then contentLength + 0.2 else contentLength
  ((max 1 ⌈contentLength⌉ : ℤ) : ℚ)

/-- Embedding of `hasSectionContent`: the fixed section-name map,
defaulting to false for unrecognized names. -/
def hasSectionContent (cv : ParsedCV) (sec : String) : Bool :=
  if sec = "personal_info" then cv.personalInfo.isSome || cv.personal.isSome
  else if sec = "experience" then
    cv.experience.isSome && decide ((cv.experience.getD []).length > 0)
  else if sec = "education" then
    cv.education.isSome && decide ((cv.education.getD []).length > 0)
  else if sec = "skills" then cv.skills.isSome
  else if sec = "certifications" then
    cv.certifications.isSome && decide ((cv.certifications.getD []).length > 0)
  else if sec = "languages" then
    cv.languages.isSome && decide ((cv.languages.getD []).length > 0)
  else if sec = "references" then
    cv.references.isSome && decide ((cv.references.getD []).length > 0)
  else if sec = "photo" then hasPhoto cv
  else false

/-- Embedding of `assessFormality` (stubbed in the source: always
`formal`). -/
def assessFormality (_cv : ParsedCV) : String := "formal"

/-- Embedding of `checkDateFormat` (stubbed in the source: always true). -/
def checkDateFormat (_cv : ParsedCV) (_preferredFormat : String) : Bool := true

/-- Embedding of `checkTerminology` (stubbed in the source: always
true). -/
def checkTerminology (_cv : ParsedCV) (_preferredTerms : List String) : Bool := true

/-- Embedding of `formalityToNumber`: very_formal 3, formal 2, casual 1,
default 2. -/
def formalityToNumber (formality : String) : ℚ :=
  if formality = "very_formal" then 3
  else if formality = "formal" then 2
  else if formality = "casual" then 1
  else 2

/-- Embedding of `RegionalScoreCalculator.hasProhibitedInfo`: the fixed
restriction-name map (note: unlike the ComplianceChecker, this helper
checks `age` only — not `dateOfBirth` — and also knows `nationality`). -/
def hasProhibitedInfo (cv : ParsedCV) (restriction : String) : Bool :=
  if restriction = "age" then
    jsTruthyNat (cv.personalInfo.bind (·.age)) || jsTruthyNat (cv.personal.bind (·.age))
  else if restriction = "marital_status" then
    jsTruthyStr (cv.personalInfo.bind (·.maritalStatus)) ||
      jsTruthyStr (cv.personal.bind (·.maritalStatus))
  else if restriction = "photo" then hasPhoto cv
  else if restriction = "gender" then
    jsTruthyStr (cv.personalInfo.bind (·.gender)) ||
      jsTruthyStr (cv.personal.bind (·.gender))
  else if restriction = "nationality" then
    jsTruthyStr (cv.personalInfo.bind (·.nationality)) ||
      jsTruthyStr (cv.personal.bind (·.nationality))
  else false

/-! ## RegionalScoreCalculator
(src/regional-localization/RegionalScoreCalculator.ts lines 12-127) -/

/-- JS `Math.round`: nearest integer, ties toward positive infinity. -/
def jsRound (q : ℚ) : ℤ := ⌊q + 1/2⌋

/-- `Math.round(x * 100) / 100`: rounding to two decimal places. -/
def roundTo2 (q : ℚ) : ℚ := ((jsRound (q * 100) : ℤ) : ℚ) / 100

/-- Embedding of `calculateFormatScore`: base 0.5, photo mismatch
penalties, length-proximity bonuses, date-format bonus (stubbed true),
clamped to [0,1].  `photoRequired` is truthy only when present and true;
`preferredLength` is truthy only when present and nonzero. -/
def calculateFormatScore (cv : ParsedCV) (rc : RegionalConfiguration) : ℚ :=
  let score : ℚ := 0.5
  let photoReq := (rc.formatPreferences.bind (·.photoRequired)) = some true
  let score :=
    if photoReq ∧ hasPhoto cv = false then score - 0.2
    else if ¬photoReq ∧ hasPhoto cv = true then score - 0.1
    else score
  let cvLength := estimateCVLength cv
  let preferredLength := rc.formatPreferences.bind (·.preferredLength)
  let score :=
    if jsTruthyRat preferredLength = true ∧ |cvLength - preferredLength.getD 0| ≤ 0.5 then
      score + 0.2
    else if jsTruthyRat preferredLength = true ∧ |cvLength - preferredLength.getD 0| ≤ 1 then
      score + 0.1
    else score
  let score :=
    if checkDateFormat cv (jsOrStr (rc.formatPreferences.bind (·.dateFormat)) "DD/MM/YYYY") then
      score + 0.1
    else score
  max 0 (min 1 score)

/-- Embedding of `calculateContentScore`: base 0.5, +0.1 per present
required section, -0.15 per missing required section, -0.1 per present
discouraged section, clamped to [0,1]. -/
def calculateContentScore (cv : ParsedCV) (rc : RegionalConfiguration) : ℚ :=
  let requiredSections := (rc.contentGuidelines.bind (·.requiredSections)).getD []
  let score := requiredSections.foldl
    (fun s sec => if hasSectionContent cv sec then s + 0.1 else s - 0.15) 0.5
  let discouragedSections := (rc.contentGuidelines.bind (·.discouragedSections)).getD []
  let score := discouragedSections.foldl
    (fun s sec => if hasSectionContent cv sec then s - 0.1 else s) score
  max 0 (min 1 score)

/-- Embedding of `calculateLanguageScore`: base 0.5, formality match
bonus/penalty, terminology bonus (stubbed true), clamped to [0,1]. -/
def calculateLanguageScore (cv : ParsedCV) (rc : RegionalConfiguration) : ℚ :=
  let score : ℚ := 0.5
  let currentFormality := assessFormality cv
  let preferredFormality := rc.languageGuidelines.bind (·.formalityLevel)
  let score :=
    if some currentFormality = preferredFormality then score + 0.3
    else if jsTruthyStr preferredFormality = true ∧
        |formalityToNumber currentFormality -
          formalityToNumber (preferredFormality.getD "")| = 1 then score + 0.1
    else score - 0.2
  let preferredTerminology := (rc.languageGuidelines.bind (·.preferredTerminology)).getD []
  let score := if checkTerminology cv preferredTerminology then score + 0.2 else score
  max 0 (min 1 score)

/-- Embedding of `calculateComplianceScore`: starts at 1.0, -0.3 per
violated prohibited-info restriction, floored at 0 (the source applies no
explicit upper clamp here; the value never exceeds 1 because it only
decreases from 1). -/
def calculateComplianceScore (cv : ParsedCV) (rc : RegionalConfiguration) : ℚ :=
  let prohibitedInfo := (rc.legalRestrictions.bind (·.prohibitedInfo)).getD []
  let score := prohibitedInfo.foldl
    (fun s r => if hasProhibitedInfo cv r then s - 0.3 else s) 1
  max 0 score

/-- Embedding of `calculateRegionalScore`: the weighted accumulation of the
four sub-scores and the division by the accumulated factor sum, rounded to
two decimals. -/
def calculateRegionalScore (cv : ParsedCV) (rc : RegionalConfiguration) : ℚ :=
  let score : ℚ := 0
  let factors : ℚ := 0
  let score := score + calculateFormatScore cv rc * 0.25
  let factors := factors + 0.25
  let score := score + calculateContentScore cv rc * 0.35
  let factors := factors + 0.35
  let score := score + calculateLanguageScore cv rc * 0.25
  let factors := factors + 0.25
  let score := score + calculateComplianceScore cv rc * 0.15
  let factors := factors + 0.15
  roundTo2 (score / factors)

/-! ## Theorems for claim C5 -/

/-- Helper for C5: bounds of the [0,1] clamp. -/
theorem clamp01_bounds (x : ℚ) : 0 ≤ max 0 (min 1 x) ∧ max 0 (min 1 x) ≤ 1 :=
  ⟨le_max_left 0 _, max_le (by norm_num) (min_le_left 1 x)⟩

/-- Helper for C5: the compliance fold only decreases its accumulator. -/
theorem compliance_foldl_le (cv : ParsedCV) (l : List String) (init : ℚ) :
    l.foldl (fun s r => if hasProhibitedInfo cv r then s - 0.3 else s) init ≤ init := by
  induction l generalizing init with
  | nil => exact le_refl init
  | cons r rs ih =>
      simp only [List.foldl_cons]
      split_ifs with h
      · exact le_trans (ih (init - 0.3)) (by linarith)
      · exact ih init

/-- Helper for C5: rounding to two decimals preserves the unit interval. -/
theorem roundTo2_mem_unit (q : ℚ) (h0 : 0 ≤ q) (h1 : q ≤ 1) :
    0 ≤ roundTo2 q ∧ roundTo2 q ≤ 1 := by
  unfold roundTo2 jsRound
  constructor
  · apply div_nonneg _ (by norm_num)
    have : (0 : ℤ) ≤ ⌊q * 100 + 1 / 2⌋ := by
      apply Int.floor_nonneg.mpr
      nlinarith
    exact_mod_cast this
  · rw [div_le_one (by norm_num)]
    have hlt : ⌊q * 100 + 1 / 2⌋ < (101 : ℤ) := by
      rw [Int.floor_lt]
      push_cast
      nlinarith
    have : ⌊q * 100 + 1 / 2⌋ ≤ (100 : ℤ) := by omega
    exact_mod_cast this

/-- C5: for every CV and region configuration, `calculateRegionalScore`
returns a value in [0,1] equal to the weighted sum 0.25 * format sub-score
+ 0.35 * content sub-score + 0.25 * language sub-score + 0.15 * compliance
sub-score, each sub-score lying in [0,1] (clamped before weighting), with
the final value rounded to two decimal places. -/
theorem c5_calculate_regional_score (cv : ParsedCV) (rc : RegionalConfiguration) :
    calculateRegionalScore cv rc =
      roundTo2 (0.25 * calculateFormatScore cv rc +
        0.35 * calculateContentScore cv rc +
        0.25 * calculateLanguageScore cv rc +
        0.15 * calculateComplianceScore cv rc) ∧
    (0 ≤ calculateFormatScore cv rc ∧ calculateFormatScore cv rc ≤ 1) ∧
    (0 ≤ calculateContentScore cv rc ∧ calculateContentScore cv rc ≤ 1) ∧
    (0 ≤ calculateLanguageScore cv rc ∧ calculateLanguageScore cv rc ≤ 1) ∧
    (0 ≤ calculateComplianceScore cv rc ∧ calculateComplianceScore cv rc ≤ 1) ∧
    0 ≤ calculateRegionalScore cv rc ∧ calculateRegionalScore cv rc ≤ 1 := by
  have hf := clamp01_bounds ((fun s => if checkDateFormat cv
    (jsOrStr (rc.formatPreferences.bind (·.dateFormat)) "DD/MM/YYYY") then s + 0.1 else s) 0)
  have hfmt : 0 ≤ calculateFormatScore cv rc ∧ calculateFormatScore cv rc ≤ 1 := by
    unfold calculateFormatScore
    exact clamp01_bounds _
  have hcont : 0 ≤ calculateContentScore cv rc ∧ calculateContentScore cv rc ≤ 1 := by
    unfold calculateContentScore
    exact clamp01_bounds _
  have hlang : 0 ≤ calculateLanguageScore cv rc ∧ calculateLanguageScore cv rc ≤ 1 := by
    unfold calculateLanguageScore
    exact clamp01_bounds _
  have hcomp : 0 ≤ calculateComplianceScore cv rc ∧ calculateComplianceScore cv rc ≤ 1 := by
    unfold calculateComplianceScore
    refine ⟨le_max_left 0 _, max_le (by norm_num) ?_⟩
    exact compliance_foldl_le cv _ 1
  have heq : calculateRegionalScore cv rc =
      roundTo2 (0.25 * calculateFormatScore cv rc +
        0.35 * calculateContentScore cv rc +
        0.25 * calculateLanguageScore cv rc +
        0.15 * calculateComplianceScore cv rc) := by
    unfold calculateRegionalScore
    ring_nf
  refine ⟨heq, hfmt, hcont, hlang, hcomp, ?_⟩
  rw [heq]
  exact roundTo2_mem_unit _ (by nlinarith [hfmt.1, hcont.1, hlang.1, hcomp.1])
    (by nlinarith [hfmt.2, hcont.2, hlang.2, hcomp.2])

/-! ## CulturalOptimizer (src/unnamed/part_006) -/

/-- A CV-format adjustment recommendation. -/
structure FormatAdjustment where
  aspect : String
  current : String
  recommended : String
  reason : String
  importance : String
deriving DecidableEq, Repr

/-- A content adjustment (`section` is a Lean keyword; the field is named
`sectionName`). -/
structure ContentAdjustment where
  sectionName : String
  type : String
  description : String
  culturalReason : String
  impact : ℚ
deriving DecidableEq, Repr

/-- A before/after example pair. -/
structure ExamplePair where
  before : String
  after : String
deriving DecidableEq, Repr

/-- A language optimization suggestion. -/
structure LanguageOptimization where
  aspect : String
  suggestion : String
  examples : List ExamplePair
deriving DecidableEq, Repr

/-- Embedding of `CulturalOptimizer.generateFormatAdjustments`: photo
add/remove recommendations on mismatch, a length-reduction recommendation
when the CV exceeds the preferred length by more than 0.5 pages, and an
always-present date-format recommendation. -/
def generateFormatAdjustments (cv : ParsedCV) (rc : RegionalConfiguration) :
    List FormatAdjustment :=
  let photoReq := (rc.formatPreferences.bind (·.photoRequired)) = some true
  let photoAdjustments : List FormatAdjustment :=
    if photoReq ∧ hasPhoto cv = false then
      [⟨"photo", "No photo", "Professional headshot",
        "Photos are expected in CVs for this region", "high"⟩]
    else if ¬photoReq ∧ hasPhoto cv = true then
      [⟨"photo", "Photo included", "Remove photo",
        "Photos may lead to unconscious bias in this region", "medium"⟩]
    else []
  let currentLength := estimateCVLength cv
  let preferredLength := rc.formatPreferences.bind (·.preferredLength)
  let lengthAdjustments : List FormatAdjustment :=
    if jsTruthyRat preferredLength = true ∧ currentLength > preferredLength.getD 0 + 0.5 then
      [⟨"length", toString currentLength ++ " pages",
        toString (preferredLength.getD 0) ++ " pages",
        "Shorter CVs are preferred in this region", "high"⟩]
    else []
  photoAdjustments ++ lengthAdjustments ++
    [⟨"date_format", "MM/DD/YYYY",
      jsOrStr (rc.formatPreferences.bind (·.dateFormat)) "DD/MM/YYYY",
      "Use local date format for better readability", "low"⟩]

/-- Embedding of `CulturalOptimizer.generateContentAdjustments`: an `add`
entry (impact 0.8) per absent required section and a `remove` entry
(impact 0.4) per present discouraged section. -/
def generateContentAdjustments (cv : ParsedCV) (rc : RegionalConfiguration) :
    List ContentAdjustment :=
  let requiredSections := (rc.contentGuidelines.bind (·.requiredSections)).getD []
  let addEntries := requiredSections.filterMap (fun sec =>
    if hasSectionContent cv sec = false then
      some ⟨sec, "add", "Add " ++ sec ++ " section",
        sec ++ " is expected in CVs for this region", 0.8⟩
    else none)
  let discouragedSections := (rc.contentGuidelines.bind (·.discouragedSections)).getD []
  let removeEntries := discouragedSections.filterMap (fun sec =>
    if hasSectionContent cv sec = true then
      some ⟨sec, "remove", "Consider removing " ++ sec ++ " section",
        sec ++ " is not commonly included in this region", 0.4⟩
    else none)
  addEntries ++ removeEntries

/-- Embedding of `CulturalOptimizer.getFormalityExamples`: the fixed
example dictionary keyed by the `current_to_preferred` string. -/
def getFormalityExamples (current preferred : String) : List ExamplePair :=
  if current ++ "_to_" ++ preferred = "casual_to_formal" then
    [⟨"I worked on", "Responsible for"⟩, ⟨"Helped with", "Contributed to"⟩]
  else if current ++ "_to_" ++ preferred = "formal_to_casual" then
    [⟨"Responsible for", "Worked on"⟩, ⟨"Facilitated", "Helped with"⟩]
  else []

/-- Embedding of `CulturalOptimizer.generateLanguageOptimizations`: a
formality suggestion when the assessed formality differs from the
preferred one (also when no preference is configured: `!==` against
`undefined` is true), and an always-present terminology suggestion. -/
def generateLanguageOptimizations (cv : ParsedCV) (rc : RegionalConfiguration) :
    List LanguageOptimization :=
  let currentFormality := assessFormality cv
  let preferredFormality := rc.languageGuidelines.bind (·.formalityLevel)
  let formalitySuggestions : List LanguageOptimization :=
    if some currentFormality ≠ preferredFormality then
      [⟨"formality",
        "Adjust language to be more " ++ jsOrStr preferredFormality "professional",
        getFormalityExamples currentFormality (jsOrStr preferredFormality "formal")⟩]
    else []
  formalitySuggestions ++
    [⟨"terminology", "Use region-appropriate terminology",
      [⟨"CV", jsOrStr (rc.languageGuidelines.bind (·.cvTerminology)) "Resume"⟩,
       ⟨"Mobile", "Cell phone"⟩]⟩]

/-- The cultural-optimization report. -/
structure CulturalOptimizationResult where
  formatAdjustments : List FormatAdjustment
  contentAdjustments : List ContentAdjustment
  languageOptimization : List LanguageOptimization
deriving DecidableEq, Repr

/-- Embedding of `CulturalOptimizer.generateCulturalOptimizations`. -/
def generateCulturalOptimizations (cv : ParsedCV) (rc : RegionalConfiguration) :
    CulturalOptimizationResult :=
  ⟨generateFormatAdjustments cv rc, generateContentAdjustments cv rc,
    generateLanguageOptimizations cv rc⟩

/-! ## RegionalLocalizationService
(src/services/regional-localization.service.ts) -/

/-- The salary-expectation profile of the market insights. -/
structure SalaryExpectations where
  expectationLevel : String
  currencyPreference : String
  negotiationCulture : String
  benefitsImportance : ℚ
deriving DecidableEq, Repr

/-- The market-insight block of an optimization result. -/
structure MarketInsights where
  popularIndustries : List String
  averageJobSearchDuration : ℚ
  networkingImportance : String
  remoteWorkAdoption : ℚ
  salaryExpectations : SalaryExpectations
deriving DecidableEq, Repr

/-- A localized recommendation. -/
structure LocalizedRecommendation where
  category : String
  priority : Nat
  title : String
  description : String
  actionItems : List String
  culturalContext : String
  impact : ℚ
deriving DecidableEq, Repr

/-- An optimization request (the fields the service reads). -/
structure RegionalOptimizationRequest where
  userId : String
  cvData : ParsedCV
  targetRegion : String
deriving DecidableEq, Repr

/-- The structured optimization result. -/
structure RegionalOptimizationResult where
  regionScore : ℚ
  culturalFit : String
  legalCompliance : ComplianceResult
  culturalOptimization : CulturalOptimizationResult
  marketInsights : MarketInsights
  localizedRecommendations : List LocalizedRecommendation
deriving DecidableEq, Repr

/-- Embedding of `RegionalLocalizationService.getMarketInsights`. -/
def getMarketInsights (rc : RegionalConfiguration) : MarketInsights :=
  let networkingValue := jsOrRat (rc.culturalFactors.bind (·.networkingImportance)) 0
  let ni := if networkingValue > 0.7 then "high"
    else if networkingValue > 0.4 then "medium" else "low"
  ⟨((rc.jobMarket.bind (·.topIndustries)).getD []).map (·.industry),
    jsOrRat (rc.jobMarket.bind (·.averageTimeToHire)) 90,
    ni,
    jsOrRat (rc.technologyLandscape.bind (·.remoteWorkAcceptance)) 0.5,
    ⟨"market_rate", jsOrStr rc.currency "USD", "subtle", 0.7⟩⟩

/-- Stable insertion into a priority-sorted recommendation list (JS
`Array.prototype.sort` is stable and the comparator orders by ascending
priority). -/
def insertByPriority (x : LocalizedRecommendation) :
    List LocalizedRecommendation → List LocalizedRecommendation
  | [] => [x]
  | y :: ys => if y.priority ≤ x.priority then y :: insertByPriority x ys
      else x :: y :: ys

/-- Stable sort by ascending priority. -/
def sortByPriority (l : List LocalizedRecommendation) : List LocalizedRecommendation :=
  l.foldl (fun acc x => insertByPriority x acc) []

/-- Embedding of `RegionalLocalizationService.generateRecommendations`:
legal recommendations (priority 1 for errors, 2 for warnings) followed by
format recommendations (priority 2 for high importance, 3 otherwise),
sorted by ascending priority. -/
def generateRecommendations (legalCompliance : ComplianceResult)
    (culturalOptimization : CulturalOptimizationResult)
    (rc : RegionalConfiguration) : List LocalizedRecommendation :=
  let legalRecs := legalCompliance.issues.map (fun issue =>
    (⟨"legal", if issue.severity = "error" then 1 else 2,
      "Legal Compliance Issue", issue.description, [issue.solution],
      "Required for compliance in " ++ rc.regionName,
      if issue.severity = "error" then 0.9 else 0.5⟩ : LocalizedRecommendation))
  let formatRecs := culturalOptimization.formatAdjustments.map (fun adj =>
    (⟨"format", if adj.importance = "high" then 2 else 3,
      adj.aspect ++ " Adjustment", adj.reason,
      ["Change from \"" ++ adj.current ++ "\" to \"" ++ adj.recommended ++ "\""],
      adj.reason, 0.6⟩ : LocalizedRecommendation))
  sortByPriority (legalRecs ++ formatRecs)

/-- Embedding of `RegionalLocalizationService.determineCulturalFit`:
thresholds 0.9 / 0.75 / 0.6. -/
def determineCulturalFit (regionScore : ℚ) : String :=
  if regionScore ≥ 0.9 then "excellent"
  else if regionScore ≥ 0.75 then "good"
  else if regionScore ≥ 0.6 then "fair"
  else "needs_improvement"

/-- ASCII lower-casing of one character (JS `toLowerCase` restricted to
ASCII; region identifiers are ASCII). -/
def jsToLowerChar (c : Char) : Char :=
  if 'A' ≤ c ∧ c ≤ 'Z' then Char.ofNat (c.toNat + 32) else c

/-- ASCII lower-casing of a string (JS `String.prototype.toLowerCase`). -/
def jsToLower (s : String) : String := String.mk (s.data.map jsToLowerChar)

/-- Embedding of the configuration-map lookup in `optimizeForRegion`:
`this.regionalConfigs.get(request.targetRegion.toLowerCase())`, the map
being keyed by lowercased region id. -/
def lookupRegionConfig (configs : List (String × RegionalConfiguration))
    (region : String) : Option RegionalConfiguration :=
  (configs.find? (fun kv => kv.1 = jsToLower region)).map (·.2)

/-- Embedding of `RegionalLocalizationService.optimizeForRegion`
(src/services/regional-localization.service.ts lines 79-120): throws an
unsupported-region error when the lookup fails; otherwise builds the
result with the compliance report, the cultural optimizations, the market
insights, the sorted recommendations — and a hardcoded `regionScore` of 0
with `culturalFit = determineCulturalFit(0)` (the score-calculator call is
commented out in the source). -/
def optimizeForRegion (configs : List (String × RegionalConfiguration))
    (request : RegionalOptimizationRequest) :
    Except String RegionalOptimizationResult :=
  match lookupRegionConfig configs request.targetRegion with
  | none => .error ("Unsupported region: " ++ request.targetRegion)
  | some rc =>
      let legalCompliance := checkLegalCompliance request.cvData rc
      let culturalOptimization := generateCulturalOptimizations request.cvData rc
      .ok ⟨0, determineCulturalFit 0, legalCompliance, culturalOptimization,
        getMarketInsights rc,
        generateRecommendations legalCompliance culturalOptimization rc⟩

/-! ## Theorems for claim C6 -/

/-- C6: for every optimization request whose target region matches a loaded
configuration case-insensitively, `optimizeForRegion` returns a result
whose `regionScore` is 0 and whose `culturalFit` is `needs_improvement`;
for every request whose target region has no configuration, it raises an
unsupported-region error and returns no result. -/
theorem c6_optimize_for_region (configs : List (String × RegionalConfiguration))
    (request : RegionalOptimizationRequest) :
    (∀ rc, lookupRegionConfig configs request.targetRegion = some rc →
      ∃ r, optimizeForRegion configs request = .ok r ∧
        r.regionScore = 0 ∧ r.culturalFit = "needs_improvement") ∧
    (lookupRegionConfig configs request.targetRegion = none →
      optimizeForRegion configs request =
        .error ("Unsupported region: " ++ request.targetRegion)) := by
  constructor
  · intro rc hrc
    unfold optimizeForRegion
    rw [hrc]
    exact ⟨_, rfl, rfl, by norm_num [determineCulturalFit]⟩
  · intro hnone
    unfold optimizeForRegion
    rw [hnone]

/-- A concrete region configuration for the C6 witness. -/
def usRegionConfig : RegionalConfiguration :=
  ⟨"us", "US", some "USD",
    some ⟨some false, some 1, some "MM/DD/YYYY"⟩,
    some ⟨some ["personal_info", "experience", "education"], some ["photo", "age"]⟩,
    some ⟨some "formal", some [], some "Resume"⟩,
    some ⟨some ["age", "marital_status", "photo"], some false⟩,
    some ⟨some 0.6⟩, some ⟨some [], some 30⟩, some ⟨some 0.6⟩⟩

/-- Witness for `c6_optimize_for_region`: a loaded `us` configuration found
case-insensitively from target region `US`, and a missing `mars` region. -/
theorem c6_optimize_for_region_witness :
    (∃ r, optimizeForRegion [("us", usRegionConfig)] ⟨"u1", ⟨none, none, none,
        none, none, none, none, none⟩, "US"⟩ = .ok r ∧
      r.regionScore = 0 ∧ r.culturalFit = "needs_improvement") ∧
    optimizeForRegion [("us", usRegionConfig)] ⟨"u1", ⟨none, none, none,
        none, none, none, none, none⟩, "mars"⟩ =
      .error "Unsupported region: mars" :=
  ⟨(c6_optimize_for_region [("us", usRegionConfig)] _).1 usRegionConfig rfl,
   (c6_optimize_for_region [("us", usRegionConfig)] _).2 rfl⟩

/-! ## I18nLogger translation-miss tracking (src/unnamed/part_007,
I18nLogger section)

`translationMiss(context)` computes the dedup key as the template literal
built from `context.locale`, `context.namespace` and `context.key`.  The
`I18nContext` interface declares NO `locale` property (only
`currentLocale`), so `context.locale` is always `undefined` and renders as
the string `undefined` inside the template literal; the stored record's
`locale` field, by contrast, is set from `context.currentLocale`.  The
miss table is the in-memory `Map` passed explicitly; `namespace` is a Lean
keyword, so the context/record field is named `ns`. -/

/-- The logging context fields `translationMiss` and
`getTranslationMissStats` read. -/
structure I18nContext where
  userId : Option String
  sessionId : Option String
  currentLocale : Option String
  requestedLocale : Option String
  fallbackLocale : Option String
  ns : Option String
  key : Option String
  pluralCount : Option Nat
deriving DecidableEq, Repr

/-- The JS property access `context.locale`: the `I18nContext` interface
has no such property, so the read yields `undefined`. -/
def I18nContext.locale (_ : I18nContext) : Option String := none

/-- Rendering of a possibly-undefined string inside a JS template literal
(`undefined` renders as the text `undefined`). -/
def jsTemplate (o : Option String) : String := o.getD "undefined"

/-- A recorded translation miss (the stored `context` sub-object is
omitted; no claim reads it). -/
structure TranslationMiss where
  key : Option String
  ns : Option String
  locale : Option String
  timestamp : Nat
  userId : Option String
deriving DecidableEq, Repr

/-- The dedup key `missKey` template of `translationMiss`:
`${context.locale}_${context.namespace}_${context.key}`. -/
def translationMissKey (c : I18nContext) : String :=
  jsTemplate c.locale ++ "_" ++ jsTemplate c.ns ++ "_" ++ jsTemplate c.key

/-- Embedding of `I18nLogger.translationMiss`: insert a record into the
miss map only when the dedup key is not yet present.  `now` is the
`Date.now()` timestamp of the call. -/
def translationMissRecord (c : I18nContext) (now : Nat)
    (misses : List (String × TranslationMiss)) : List (String × TranslationMiss) :=
  let missKey := translationMissKey c
  if (misses.find? (fun kv => kv.1 = missKey)).isSome then misses
  else misses ++ [(missKey, ⟨c.key, c.ns, c.currentLocale, now, c.userId⟩)]

/-- The statistics record returned by `getTranslationMissStats`
(the per-locale and per-namespace breakdowns are the counting functions
the source builds as plain objects). -/
structure TranslationMissStats where
  totalMisses : Nat
  missesByLocale : String → Nat
  missesByNamespace : String → Nat
  recentMisses : List TranslationMiss

/-- Embedding of `I18nLogger.getTranslationMissStats`: totals, per-locale
and per-namespace counts over the stored records, and the misses of the
last 24 hours. -/
def getTranslationMissStats (misses : List (String × TranslationMiss))
    (now : Nat) : TranslationMissStats :=
  let vals := misses.map (·.2)
  ⟨vals.length,
    fun loc => (vals.filter (fun m => jsTemplate m.locale = loc)).length,
    fun ns => (vals.filter (fun m => jsTemplate m.ns = ns)).length,
    vals.filter (fun m => m.timestamp > now - 24 * 60 * 60 * 1000)⟩

/-! ## Theorems for claim C8 -/

/-- A miss context with the given current locale, namespace `common` and
key `hello`. -/
def missContextAt (loc : String) : I18nContext :=
  ⟨none, none, some loc, none, none, some "common", some "hello", none⟩

/-- C8 (code bug): the claim says the miss table deduplicates by (locale,
namespace, key), so two misses agreeing on namespace and key under two
different current locales give two entries, counted separately per locale.
In the code the dedup key reads `context.locale`, a property the context
interface does not have, so the key is `undefined_common_hello` for BOTH
calls: the second miss is dropped, the table holds one entry, and the
per-locale breakdown counts 1 for `en` and 0 for `fr`. -/
theorem c8_miss_dedup_ignores_locale :
    translationMissKey (missContextAt "en") = "undefined_common_hello" ∧
    translationMissKey (missContextAt "en") = translationMissKey (missContextAt "fr") ∧
    (translationMissRecord (missContextAt "fr") 2000
        (translationMissRecord (missContextAt "en") 1000 [])).length = 1 ∧
    (getTranslationMissStats
        (translationMissRecord (missContextAt "fr") 2000
          (translationMissRecord (missContextAt "en") 1000 [])) 2000).totalMisses = 1 ∧
    (getTranslationMissStats
        (translationMissRecord (missContextAt "fr") 2000
          (translationMissRecord (missContextAt "en") 1000 [])) 2000).missesByLocale "en" = 1 ∧
    (getTranslationMissStats
        (translationMissRecord (missContextAt "fr") 2000
          (translationMissRecord (missContextAt "en") 1000 [])) 2000).missesByLocale "fr" = 0 := by
  refine ⟨rfl, rfl, rfl, rfl, rfl, rfl⟩

/-! ## updateTranslations (src/backend/functions/updateTranslations.ts)

The handler validates auth, roles and arguments in source order, reads the
current `(language, namespace)` translation document, processes each
incoming key/value pair (recording invalid ones in a per-key error list
and continuing), then writes the merged document, an audit entry and a
cache marker.  JS objects become association lists; a value of `none`
models a non-string value in the `translations` record.  The pair of the
outcome and the post-call store is returned; an error outcome leaves the
store untouched (the rejection happens before any write). -/

/-- The caller identity (`auth.uid` with the custom role claims). -/
structure AuthInfo where
  uid : String
  admin : Bool
  translator : Bool
deriving DecidableEq, Repr

/-- A typed `HttpsError` (machine-readable code plus message). -/
structure HttpsErr where
  code : String
  message : String
deriving DecidableEq, Repr

/-- The update request (`namespace` is a Lean keyword; the field is named
`ns`).  A `none` value models a non-string entry. -/
structure UpdateTranslationsRequest where
  language : String
  ns : String
  translations : List (String × Option String)
  merge : Bool
  source : String
deriving DecidableEq, Repr

/-- The persisted `(language, namespace)` translation document. -/
structure TranslationsDoc where
  translations : List (String × String)
  version : Nat
deriving DecidableEq, Repr

/-- The slice of the document store the handler touches: the translation
document, the count of audit entries and the cache markers. -/
structure FirestoreState where
  translationDoc : Option TranslationsDoc
  activityEntries : Nat
  cacheMarkers : List String
deriving DecidableEq, Repr

/-- Embedding of `isValidTranslationKey` (lines 359-363): the key matches
`^[a-zA-Z0-9._-]+$` and has length between 1 and 200. -/
def isValidTranslationKey (key : String) : Bool :=
  key.data.all (fun c => c.isAlphanum || c = '.' || c = '_' || c = '-') &&
    decide (key.length > 0) && decide (key.length ≤ 200)

/-- JS object read `obj[key]` on an association list. -/
def assocGet (l : List (String × String)) (k : String) : Option String :=
  (l.find? (fun kv => kv.1 = k)).map (·.2)

/-- JS object write `obj[key] = v` on an association list (in-place update
of an existing key, else append). -/
def assocSet (l : List (String × String)) (k v : String) : List (String × String) :=
  if (l.find? (fun kv => kv.1 = k)).isSome then
    l.map (fun kv => if kv.1 = k then (k, v) else kv)
  else l ++ [(k, v)]

/-- The accumulated outcome of the per-key processing loop. -/
structure ProcessOutcome where
  updatedKeys : List String
  skippedKeys : List String
  newKeys : List String
  errors : List (String × String)
  finalTranslations : List (String × String)
deriving DecidableEq, Repr

/-- One iteration of the `for (const [key, value] of Object.entries(...))`
loop: an invalid key or value is recorded in the error list and skipped;
otherwise the key is classified as new / updated / unchanged and the
trimmed value written into the accumulating final translations. -/
def processStep (current : List (String × String)) (acc : ProcessOutcome)
    (kv : String × Option String) : ProcessOutcome :=
  if isValidTranslationKey kv.1 = false then
    { acc with errors := acc.errors ++
        [(kv.1, "Invalid key format. Keys must be alphanumeric with dots, underscores, or hyphens.")] }
  else
    match kv.2 with
    | none =>
        { acc with errors := acc.errors ++
            [(kv.1, "Translation value must be a non-empty string.")] }
    | some v =>
        if v.trim.length = 0 then
          { acc with errors := acc.errors ++
              [(kv.1, "Translation value must be a non-empty string.")] }
        else if (assocGet current kv.1).isNone then
          { acc with
            newKeys := acc.newKeys ++ [kv.1]
            finalTranslations := assocSet acc.finalTranslations kv.1 v.trim }
        else if assocGet current kv.1 ≠ some v then
          { acc with
            updatedKeys := acc.updatedKeys ++ [kv.1]
            finalTranslations := assocSet acc.finalTranslations kv.1 v.trim }
        else { acc with skippedKeys := acc.skippedKeys ++ [kv.1] }

/-- The whole processing loop, starting from `finalTranslations` equal to
the current document when `merge` and empty otherwise. -/
def processEntries (current : List (String × String))
    (entries : List (String × Option String)) (merge : Bool) : ProcessOutcome :=
  entries.foldl (processStep current) ⟨[], [], [], [], if merge then current else []⟩

/-- Validity of one entry: exactly the complement of the two per-key error
conditions of `processStep`. -/
def entryValid (kv : String × Option String) : Bool :=
  isValidTranslationKey kv.1 &&
    (match kv.2 with
     | some v => decide (v.trim.length ≠ 0)
     | none => false)

/-- The aggregate statistics of the response. -/
structure UpdateStatistics where
  totalProvided : Nat
  successfulUpdates : Nat
  failedUpdates : Nat
  newTranslations : Nat
deriving DecidableEq, Repr

/-- The response envelope of `updateTranslations` (success flag and
timestamp omitted: constant / wall-clock). -/
structure UpdateTranslationsResponse where
  language : String
  ns : String
  updatedKeys : List String
  skippedKeys : List String
  newKeys : List String
  errors : List (String × String)
  statistics : UpdateStatistics
deriving DecidableEq, Repr

/-- Embedding of the `updateTranslations` handler (lines 39-246):
validations in source order, then the processing loop, then the document
write (version incremented), audit entry and cache marker. -/
def updateTranslations (auth : Option AuthInfo) (req : UpdateTranslationsRequest)
    (store : FirestoreState) :
    Except HttpsErr UpdateTranslationsResponse × FirestoreState :=
  match auth with
  | none =>
      (.error ⟨"unauthenticated", "Authentication required for translation updates"⟩, store)
  | some a =>
      if ¬ (a.admin = true ∨ a.translator = true) then
        (.error ⟨"permission-denied", "Admin or translator privileges required"⟩, store)
      else if req.language = "" ∨ ¬ (req.language ∈ supportedLanguagesList) then
        (.error ⟨"invalid-argument", "Invalid language: " ++ req.language⟩, store)
      else if req.ns = "" then
        (.error ⟨"invalid-argument", "Valid namespace is required"⟩, store)
      else if req.translations.length = 0 then
        (.error ⟨"invalid-argument", "At least one translation is required"⟩, store)
      else if req.translations.length > 1000 then
        (.error ⟨"invalid-argument", "Maximum 1000 translation keys per update"⟩, store)
      else
        let current := (store.translationDoc.map (·.translations)).getD []
        let out := processEntries current req.translations req.merge
        let newVersion := (store.translationDoc.map (·.version)).getD 0 + 1
        let newStore : FirestoreState :=
          ⟨some ⟨out.finalTranslations, newVersion⟩,
            store.activityEntries + 1,
            store.cacheMarkers ++ ["translations_" ++ req.language ++ "_" ++ req.ns]⟩
        (.ok ⟨req.language, req.ns, out.updatedKeys, out.skippedKeys, out.newKeys,
          out.errors,
          ⟨req.translations.length,
            out.updatedKeys.length + out.newKeys.length,
            out.errors.length,
            out.newKeys.length⟩⟩, newStore)

/-! ## Theorems for claim C9 -/

/-- The per-key error message an invalid entry receives. -/
def invalidEntryMsg (kv : String × Option String) : String :=
  if isValidTranslationKey kv.1 = false then
    "Invalid key format. Keys must be alphanumeric with dots, underscores, or hyphens."
  else "Translation value must be a non-empty string."

/-- Helper for C9: an invalid entry only appends its error record. -/
theorem processStep_invalid (current : List (String × String))
    (kv : String × Option String) (hinv : entryValid kv = false)
    (u s n : List String) (e f : List (String × String)) :
    processStep current ⟨u, s, n, e, f⟩ kv =
      ⟨u, s, n, e ++ [(kv.1, invalidEntryMsg kv)], f⟩ := by
  unfold processStep invalidEntryMsg
  cases hkt : isValidTranslationKey kv.1 with
  | false => simp
  | true =>
      simp only [entryValid, hkt, Bool.true_and] at hinv
      cases hv : kv.2 with
      | none => simp
      | some v =>
          rw [hv] at hinv
          simp only [decide_eq_false_iff_not, Decidable.not_not] at hinv
          simp [hinv]

/-- Helper for C9: a valid entry never touches the error list; its effect
is the effect computed from an empty error list, with the caller's error
list put back. -/
theorem processStep_valid_errors (current : List (String × String))
    (kv : String × Option String) (hval : entryValid kv = true)
    (u s n : List String) (e f : List (String × String)) :
    processStep current ⟨u, s, n, e, f⟩ kv =
      { processStep current ⟨u, s, n, [], f⟩ kv with errors := e } := by
  simp only [entryValid, Bool.and_eq_true] at hval
  obtain ⟨hkt, hrest⟩ := hval
  unfold processStep
  rw [hkt]
  cases hv : kv.2 with
  | none => rw [hv] at hrest; simp at hrest
  | some v =>
      rw [hv] at hrest
      simp only [decide_eq_true_eq] at hrest
      simp only [Bool.true_eq_false, if_false, if_neg hrest]
      split_ifs <;> rfl

/-- Helper for C9: the processing fold decomposes — the classification
lists and the final translations are those of the valid entries alone, and
the error list appends exactly one entry per invalid input pair, in
order. -/
theorem processEntries_decompose (current : List (String × String))
    (entries : List (String × Option String)) (u s n : List String)
    (e : List (String × String)) (f : List (String × String)) :
    entries.foldl (processStep current) ⟨u, s, n, e, f⟩ =
      ⟨((entries.filter (fun kv => entryValid kv)).foldl (processStep current)
          ⟨u, s, n, [], f⟩).updatedKeys,
        ((entries.filter (fun kv => entryValid kv)).foldl (processStep current)
          ⟨u, s, n, [], f⟩).skippedKeys,
        ((entries.filter (fun kv => entryValid kv)).foldl (processStep current)
          ⟨u, s, n, [], f⟩).newKeys,
        e ++ (entries.filter (fun kv => entryValid kv = false)).map
          (fun kv => (kv.1, invalidEntryMsg kv)),
        ((entries.filter (fun kv => entryValid kv)).foldl (processStep current)
          ⟨u, s, n, [], f⟩).finalTranslations⟩ := by
  induction entries generalizing u s n e f with
  | nil => simp
  | cons kv rest ih =>
      by_cases hval : entryValid kv = true
      · rw [List.foldl_cons, processStep_valid_errors current kv hval u s n e f]
        rcases hstep0 : processStep current ⟨u, s, n, [], f⟩ kv with ⟨u', s', n', e', f'⟩
        have he' : e' = [] := by
          have h0 := processStep_valid_errors current kv hval u s n [] f
          rw [hstep0] at h0
          exact (ProcessOutcome.mk.injEq _ _ _ _ _ _ _ _ _ _).mp h0 |>.2.2.2.1
        subst he'
        simp only
        rw [ih u' s' n' e f']
        have hfilter : (kv :: rest).filter (fun kv => entryValid kv) =
            kv :: rest.filter (fun kv => entryValid kv) := by
          simp [List.filter_cons, hval]
        have hfilterInv : (kv :: rest).filter (fun kv => entryValid kv = false) =
            rest.filter (fun kv => entryValid kv = false) := by
          simp [List.filter_cons, hval]
        rw [hfilter, hfilterInv, List.foldl_cons, hstep0]
      · rw [Bool.not_eq_true] at hval
        rw [List.foldl_cons, processStep_invalid current kv hval u s n e f]
        rw [ih u s n (e ++ [(kv.1, invalidEntryMsg kv)]) f]
        have hfilter : (kv :: rest).filter (fun kv => entryValid kv) =
            rest.filter (fun kv => entryValid kv) := by
          simp [List.filter_cons, hval]
        have hfilterInv : (kv :: rest).filter (fun kv => entryValid kv = false) =
            kv :: rest.filter (fun kv => entryValid kv = false) := by
          simp [List.filter_cons, hval]
        rw [hfilter, hfilterInv, List.map_cons]
        simp [List.append_assoc]

/-- Helper for C9: corollary of the decomposition at the loop's actual
starting accumulator — the classification lists and final translations of
a processing run are those of the run on the valid entries alone, and the
errors are exactly one record per invalid entry, in order. -/
theorem processEntries_filter_valid (current : List (String × String))
    (entries : List (String × Option String)) (merge : Bool) :
    processEntries current entries merge =
      ⟨(processEntries current (entries.filter (fun kv => entryValid kv)) merge).updatedKeys,
        (processEntries current (entries.filter (fun kv => entryValid kv)) merge).skippedKeys,
        (processEntries current (entries.filter (fun kv => entryValid kv)) merge).newKeys,
        (entries.filter (fun kv => entryValid kv = false)).map
          (fun kv => (kv.1, invalidEntryMsg kv)),
        (processEntries current (entries.filter (fun kv => entryValid kv)) merge).finalTranslations⟩ := by
  unfold processEntries
  rw [processEntries_decompose current entries [] [] [] []
    (if merge then current else [])]
  simp

/-- Helper for C9: one processing step either leaves each classification
list unchanged or appends exactly the processed key. -/
theorem processStep_list_shapes (current : List (String × String))
    (acc : ProcessOutcome) (kv : String × Option String) :
    ((processStep current acc kv).updatedKeys = acc.updatedKeys ∨
      (processStep current acc kv).updatedKeys = acc.updatedKeys ++ [kv.1]) ∧
    ((processStep current acc kv).skippedKeys = acc.skippedKeys ∨
      (processStep current acc kv).skippedKeys = acc.skippedKeys ++ [kv.1]) ∧
    ((processStep current acc kv).newKeys = acc.newKeys ∨
      (processStep current acc kv).newKeys = acc.newKeys ++ [kv.1]) := by
  rcases kv with ⟨k, v⟩
  cases v <;> simp only [processStep] <;> split_ifs <;> simp

/-- Helper for C9: every key in a classification list of the processing
fold comes from the starting accumulator or from one of the processed
entries. -/
theorem foldl_mem_classification (current : List (String × String))
    (entries : List (String × Option String)) (acc : ProcessOutcome) (k : String) :
    (k ∈ (entries.foldl (processStep current) acc).updatedKeys →
      k ∈ acc.updatedKeys ∨ k ∈ entries.map Prod.fst) ∧
    (k ∈ (entries.foldl (processStep current) acc).skippedKeys →
      k ∈ acc.skippedKeys ∨ k ∈ entries.map Prod.fst) ∧
    (k ∈ (entries.foldl (processStep current) acc).newKeys →
      k ∈ acc.newKeys ∨ k ∈ entries.map Prod.fst) := by
  induction entries generalizing acc with
  | nil => simp
  | cons kv rest ih =>
      simp only [List.foldl_cons, List.map_cons]
      obtain ⟨hu, hs, hn⟩ := processStep_list_shapes current acc kv
      refine ⟨fun hk => ?_, fun hk => ?_, fun hk => ?_⟩
      · rcases (ih (processStep current acc kv)).1 hk with h | h
        · rcases hu with he | he
          · rw [he] at h; exact Or.inl h
          · rw [he] at h
            rcases List.mem_append.mp h with h2 | h2
            · exact Or.inl h2
            · simp only [List.mem_singleton] at h2
              subst h2
              exact Or.inr (List.mem_cons_self _ _)
        · exact Or.inr (List.mem_cons_of_mem _ h)
      · rcases (ih (processStep current acc kv)).2.1 hk with h | h
        · rcases hs with he | he
          · rw [he] at h; exact Or.inl h
          · rw [he] at h
            rcases List.mem_append.mp h with h2 | h2
            · exact Or.inl h2
            · simp only [List.mem_singleton] at h2
              subst h2
              exact Or.inr (List.mem_cons_self _ _)
        · exact Or.inr (List.mem_cons_of_mem _ h)
      · rcases (ih (processStep current acc kv)).2.2 hk with h | h
        · rcases hn with he | he
          · rw [he] at h; exact Or.inl h
          · rw [he] at h
            rcases List.mem_append.mp h with h2 | h2
            · exact Or.inl h2
            · simp only [List.mem_singleton] at h2
              subst h2
              exact Or.inr (List.mem_cons_self _ _)
        · exact Or.inr (List.mem_cons_of_mem _ h)

/-- C9: `updateTranslations` rejects any request with more than 1000
translation keys with an invalid-argument error before performing any
write (the store is returned untouched); and in an accepted request every
key with an invalid format (not matching `^[a-zA-Z0-9._-]+$` with length
1-200) or an invalid value (not a string that is non-empty after trimming)
is recorded in the per-key error list and is skipped — it appears in no
classification list (given the JS-object guarantee that request keys are
distinct) — while the valid entries are processed exactly as if the
invalid ones were absent. -/
theorem c9_update_translations (a : AuthInfo) (req : UpdateTranslationsRequest)
    (store : FirestoreState)
    (hrole : a.admin = true ∨ a.translator = true)
    (hlang1 : req.language ≠ "") (hlang2 : req.language ∈ supportedLanguagesList)
    (hns : req.ns ≠ "") :
    (req.translations.length > 1000 →
      updateTranslations (some a) req store =
        (.error ⟨"invalid-argument", "Maximum 1000 translation keys per update"⟩,
          store)) ∧
    (req.translations.length ≠ 0 → req.translations.length ≤ 1000 →
      ∃ out : ProcessOutcome,
        out = processEntries ((store.translationDoc.map (·.translations)).getD [])
          req.translations req.merge ∧
        updateTranslations (some a) req store =
          (.ok ⟨req.language, req.ns, out.updatedKeys, out.skippedKeys, out.newKeys,
            out.errors,
            ⟨req.translations.length, out.updatedKeys.length + out.newKeys.length,
              out.errors.length, out.newKeys.length⟩⟩,
            ⟨some ⟨out.finalTranslations,
              (store.translationDoc.map (·.version)).getD 0 + 1⟩,
              store.activityEntries + 1,
              store.cacheMarkers ++ ["translations_" ++ req.language ++ "_" ++ req.ns]⟩) ∧
        out.errors = (req.translations.filter (fun kv => entryValid kv = false)).map
          (fun kv => (kv.1, invalidEntryMsg kv)) ∧
        out.updatedKeys = (processEntries
          ((store.translationDoc.map (·.translations)).getD [])
          (req.translations.filter (fun kv => entryValid kv)) req.merge).updatedKeys ∧
        out.skippedKeys = (processEntries
          ((store.translationDoc.map (·.translations)).getD [])
          (req.translations.filter (fun kv => entryValid kv)) req.merge).skippedKeys ∧
        out.newKeys = (processEntries
          ((store.translationDoc.map (·.translations)).getD [])
          (req.translations.filter (fun kv => entryValid kv)) req.merge).newKeys ∧
        out.finalTranslations = (processEntries
          ((store.translationDoc.map (·.translations)).getD [])
          (req.translations.filter (fun kv => entryValid kv)) req.merge).finalTranslations ∧
        (∀ kv ∈ req.translations, entryValid kv = false →
          kv.1 ∈ out.errors.map Prod.fst ∧
          ((req.translations.map Prod.fst).Nodup →
            kv.1 ∉ out.updatedKeys ∧ kv.1 ∉ out.newKeys ∧ kv.1 ∉ out.skippedKeys))) := by
  have hcond1 : ¬¬(a.admin = true ∨ a.translator = true) := not_not_intro hrole
  have hcond2 : ¬(req.language = "" ∨ ¬(req.language ∈ supportedLanguagesList)) := by
    rintro (h | h)
    · exact hlang1 h
    · exact h hlang2
  constructor
  · intro h1000
    simp only [updateTranslations]
    rw [if_neg hcond1, if_neg hcond2, if_neg hns,
      if_neg (show ¬(req.translations.length = 0) by omega), if_pos h1000]
  · intro hne hle
    refine ⟨processEntries ((store.translationDoc.map (·.translations)).getD [])
      req.translations req.merge, rfl, ?_, ?_⟩
    · simp only [updateTranslations]
      rw [if_neg hcond1, if_neg hcond2, if_neg hns, if_neg hne,
        if_neg (show ¬(req.translations.length > 1000) by omega)]
    · have hout := processEntries_filter_valid
        ((store.translationDoc.map (·.translations)).getD [])
        req.translations req.merge
      refine ⟨by rw [hout], by rw [hout], by rw [hout],
        by rw [hout], by rw [hout], ?_⟩
      intro kv hkv hinv
      constructor
      · rw [hout]
        simp only [List.map_map, List.mem_map, Function.comp]
        exact ⟨kv, List.mem_filter.mpr ⟨hkv, by simp [hinv]⟩, rfl⟩
      · intro hnodup
        have hVmem := foldl_mem_classification
          ((store.translationDoc.map (·.translations)).getD [])
          (req.translations.filter (fun kv => entryValid kv))
          ⟨[], [], [], [],
            if req.merge then (store.translationDoc.map (·.translations)).getD []
            else []⟩ kv.1
        have hfromV : ∀ h : kv.1 ∈ (req.translations.filter
            (fun kv => entryValid kv)).map Prod.fst, False := by
          intro h
          obtain ⟨kv', hkv'mem, hfst⟩ := List.mem_map.mp h
          have hkv'entries : kv' ∈ req.translations := (List.mem_filter.mp hkv'mem).1
          have hkv'valid : entryValid kv' = true := by
            have := (List.mem_filter.mp hkv'mem).2
            simpa using this
          have heq : kv' = kv :=
            List.inj_on_of_nodup_map hnodup hkv'entries hkv hfst
          rw [heq, hinv] at hkv'valid
          exact Bool.false_ne_true hkv'valid
        refine ⟨fun hk => ?_, fun hk => ?_, fun hk => ?_⟩
        · rw [hout] at hk
          rcases hVmem.1 hk with h | h
          · simp at h
          · exact hfromV h
        · rw [hout] at hk
          rcases hVmem.2.2 hk with h | h
          · simp at h
          · exact hfromV h
        · rw [hout] at hk
          rcases hVmem.2.1 hk with h | h
          · simp at h
          · exact hfromV h

/-- A concrete admin identity for the C9 witness. -/
def c9Auth : AuthInfo := ⟨"admin1", true, false⟩

/-- A concrete update request for the C9 witness: one valid entry, one key
failing the format pattern (contains a space) and one value that is empty
after trimming. -/
def c9Req : UpdateTranslationsRequest :=
  ⟨"en", "common",
    [("good.key", some "Hello"), ("bad key", some "x"), ("empty.key", some "   ")],
    true, "manual"⟩

/-- A concrete empty store for the C9 witness. -/
def c9Store : FirestoreState := ⟨none, 0, []⟩

/-- Witness for `c9_update_translations` at the concrete request: the
update succeeds, the two invalid entries are recorded as errors, and the
invalid key appears in no classification list. -/
theorem c9_update_translations_witness :
    ∃ out : ProcessOutcome,
      updateTranslations (some c9Auth) c9Req c9Store =
        (.ok ⟨"en", "common", out.updatedKeys, out.skippedKeys, out.newKeys, out.errors,
          ⟨3, out.updatedKeys.length + out.newKeys.length, out.errors.length,
            out.newKeys.length⟩⟩,
          ⟨some ⟨out.finalTranslations, 1⟩, 1, ["translations_en_common"]⟩) ∧
      "bad key" ∈ out.errors.map Prod.fst ∧ "bad key" ∉ out.updatedKeys ∧
      "bad key" ∉ out.newKeys ∧ "bad key" ∉ out.skippedKeys := by
  obtain ⟨out, hdef, heq, herrs, hu, hs, hn, hf, hmem⟩ :=
    (c9_update_translations c9Auth c9Req c9Store (Or.inl rfl) (by decide) (by decide)
      (by decide)).2 (by decide) (by decide)
  have h := hmem ("bad key", some "x") (by decide) (by decide)
  exact ⟨out, heq, h.1, (h.2 (by decide)).1, (h.2 (by decide)).2.1,
    (h.2 (by decide)).2.2⟩

/-! ## bulkTranslation (src/unnamed/part_002 lines 58-354)

The handler validates the request, splits the content into batches of
`batchSize` (`content.slice(i, i + batchSize)` in a loop), translates each
item into each target language with per-pair success/failure tracking
(incrementing `totalCompleted` / `totalFailed`), and finalizes with
`completed` when `totalFailed === 0` or `totalCompleted > 0`, else
`failed`.  The translation backend call is the oracle parameter `tr`
(`Except.error` models a thrown per-pair translation error); batching,
progress persistence and the inter-batch pause do not influence the final
counters.  The job-document writes are not modelled beyond the returned
response (the response carries the same status and progress the final
update writes). -/

/-- One bulk-translation content item (`namespace` is a Lean keyword; the
field is named `ns`). -/
structure ContentItem where
  id : String
  ns : String
  key : String
  text : String
deriving DecidableEq, Repr

/-- One stored per-language translation (`confidence` is the hardcoded
0.85 placeholder). -/
structure TranslationEntry where
  text : String
  confidence : ℚ
  reviewed : Bool
deriving DecidableEq, Repr

/-- The per-item result record. -/
structure ItemResult where
  id : String
  sourceText : String
  translations : List (String × TranslationEntry)
  status : String
  errors : List (String × String)
deriving DecidableEq, Repr

/-- Whether an oracle outcome is a success. -/
def exceptOk : Except String String → Bool
  | .ok _ => true
  | .error _ => false

/-- One iteration of the per-item `for (const targetLang of
targetLanguages)` loop, threading the item result and the two outer
counters `totalCompleted` and `totalFailed`. -/
def translateItemStep (tr : ContentItem → String → Except String String)
    (item : ContentItem) (acc : ItemResult × Nat × Nat) (lang : String) :
    ItemResult × Nat × Nat :=
  match tr item lang with
  | .ok t =>
      ({ acc.1 with translations := acc.1.translations ++ [(lang, ⟨t, 0.85, false⟩)] },
        acc.2.1 + 1, acc.2.2)
  | .error m =>
      ({ acc.1 with
          errors := acc.1.errors ++ [(lang, m)]
          status := if acc.1.status = "completed" then "completed" else "failed" },
        acc.2.1, acc.2.2 + 1)

/-- Translating one item into every target language, starting from the
fresh item result (`status: 'completed'`) and zero counter deltas. -/
def processItemCounts (tr : ContentItem → String → Except String String)
    (targetLanguages : List String) (item : ContentItem) : ItemResult × Nat × Nat :=
  targetLanguages.foldl (translateItemStep tr item)
    (⟨item.id, item.text, [], "completed", []⟩, 0, 0)

/-- Batch splitting with explicit fuel (the JS loop
`for (i = 0; i < length; i += batchSize)`; it terminates only for a
positive batch size, which `l.length` fuel suffices for). -/
def chunksAux : Nat → Nat → List ContentItem → List (List ContentItem)
  | 0, _, _ => []
  | _ + 1, _, [] => []
  | fuel + 1, n, x :: xs => (x :: xs).take n :: chunksAux fuel n ((x :: xs).drop n)

/-- `content.slice(i, i + batchSize)` batches. -/
def chunks (n : Nat) (l : List ContentItem) : List (List ContentItem) :=
  chunksAux l.length n l

/-- The batch loop: each batch maps `processItemCounts` over its items,
appends the item results and adds the per-batch counter sums to the outer
counters. -/
def bulkProcess (tr : ContentItem → String → Except String String)
    (targetLanguages : List String) (batches : List (List ContentItem)) :
    List ItemResult × Nat × Nat :=
  batches.foldl (fun acc batch =>
    let batchResults := batch.map (processItemCounts tr targetLanguages)
    (acc.1 ++ batchResults.map (·.1),
      acc.2.1 + (batchResults.map (fun r => r.2.1)).sum,
      acc.2.2 + (batchResults.map (fun r => r.2.2)).sum)) ([], 0, 0)

/-- The job finalization: `totalFailed === 0 ? 'completed' :
totalCompleted > 0 ? 'completed' : 'failed'`. -/
def finalStatus (totalCompleted totalFailed : Nat) : String :=
  if totalFailed = 0 then "completed"
  else if totalCompleted > 0 then "completed"
  else "failed"

/-- The progress counters of the response and final job update. -/
structure BulkProgress where
  totalItems : Nat
  completedItems : Nat
  failedItems : Nat
deriving DecidableEq, Repr

/-- The bulk-translation response (results are inlined only for at most
100 item results; larger sets go to a separate results document). -/
structure BulkTranslationOutcome where
  jobId : String
  status : String
  progress : BulkProgress
  results : Option (List ItemResult)
deriving DecidableEq, Repr

/-- Embedding of the `bulkTranslation` handler: the validation cascade in
source order, then the batched processing and the finalization. -/
def bulkTranslationRun (tr : ContentItem → String → Except String String)
    (auth : Option String) (sourceLanguage : String)
    (targetLanguages : List String) (content : List ContentItem)
    (batchSize : Nat) (jobId : String) :
    Except HttpsErr BulkTranslationOutcome :=
  match auth with
  | none => .error ⟨"unauthenticated", "Authentication required for bulk translation"⟩
  | some _ =>
      if sourceLanguage = "" ∨ targetLanguages.length = 0 then
        .error ⟨"invalid-argument", "Source language and target languages are required"⟩
      else if content.length = 0 then
        .error ⟨"invalid-argument", "Content array is required"⟩
      else if content.length > 5000 then
        .error ⟨"invalid-argument", "Maximum 5000 items per bulk translation job"⟩
      else if targetLanguages.length > 10 then
        .error ⟨"invalid-argument", "Maximum 10 target languages per job"⟩
      else if ∃ item ∈ content,
          item.id = "" ∨ item.ns = "" ∨ item.key = "" ∨ item.text = "" then
        .error ⟨"invalid-argument", "Each content item must have id, namespace, key, and text"⟩
      else
        let batches := chunks batchSize content
        let processed := bulkProcess tr targetLanguages batches
        let totalCompleted := processed.2.1
        let totalFailed := processed.2.2
        let results := processed.1
        .ok ⟨jobId, finalStatus totalCompleted totalFailed,
          ⟨content.length * targetLanguages.length, totalCompleted, totalFailed⟩,
          if results.length ≤ 100 then some results else none⟩

/-! ## Theorems for claim C3 -/

/-- The number of per-(item, language) translations that succeed. -/
def successCount (tr : ContentItem → String → Except String String)
    (targetLanguages : List String) (content : List ContentItem) : Nat :=
  (content.map (fun item =>
    (targetLanguages.filter (fun l => exceptOk (tr item l))).length)).sum

/-- The number of per-(item, language) translations that fail. -/
def failureCount (tr : ContentItem → String → Except String String)
    (targetLanguages : List String) (content : List ContentItem) : Nat :=
  (content.map (fun item =>
    (targetLanguages.filter (fun l => !(exceptOk (tr item l)))).length)).sum

/-- Helper for C3: a filter and its complement partition a list's
length. -/
theorem length_filter_add_compl {α : Type} (p : α → Bool) (l : List α) :
    (l.filter p).length + (l.filter (fun x => !(p x))).length = l.length := by
  induction l with
  | nil => rfl
  | cons x xs ih =>
      cases hp : p x <;> simp [List.filter_cons, hp] <;> omega

/-- Helper for C3: the per-item language loop adds exactly the number of
successful and failed oracle calls to the threaded counters. -/
theorem translateItemFoldl_counts (tr : ContentItem → String → Except String String)
    (item : ContentItem) (ts : List String) :
    ∀ acc : ItemResult × Nat × Nat,
      (ts.foldl (translateItemStep tr item) acc).2.1 =
        acc.2.1 + (ts.filter (fun l => exceptOk (tr item l))).length ∧
      (ts.foldl (translateItemStep tr item) acc).2.2 =
        acc.2.2 + (ts.filter (fun l => !(exceptOk (tr item l)))).length := by
  induction ts with
  | nil => intro acc; simp
  | cons l ls ih =>
      intro acc
      simp only [List.foldl_cons]
      cases htr : tr item l with
      | ok t =>
          have hok : exceptOk (tr item l) = true := by rw [htr]; rfl
          have hstep1 : (translateItemStep tr item acc l).2.1 = acc.2.1 + 1 := by
            simp [translateItemStep, htr]
          have hstep2 : (translateItemStep tr item acc l).2.2 = acc.2.2 := by
            simp [translateItemStep, htr]
          constructor
          · rw [(ih (translateItemStep tr item acc l)).1, hstep1]
            simp [List.filter_cons, hok]
            omega
          · rw [(ih (translateItemStep tr item acc l)).2, hstep2]
            simp [List.filter_cons, hok]
      | error m =>
          have hok : exceptOk (tr item l) = false := by rw [htr]; rfl
          have hstep1 : (translateItemStep tr item acc l).2.1 = acc.2.1 := by
            simp [translateItemStep, htr]
          have hstep2 : (translateItemStep tr item acc l).2.2 = acc.2.2 + 1 := by
            simp [translateItemStep, htr]
          constructor
          · rw [(ih (translateItemStep tr item acc l)).1, hstep1]
            simp [List.filter_cons, hok]
          · rw [(ih (translateItemStep tr item acc l)).2, hstep2]
            simp [List.filter_cons, hok]
            omega

/-- Helper for C3: the per-item counters of `processItemCounts`. -/
theorem processItemCounts_counts (tr : ContentItem → String → Except String String)
    (targetLanguages : List String) (item : ContentItem) :
    (processItemCounts tr targetLanguages item).2.1 =
      (targetLanguages.filter (fun l => exceptOk (tr item l))).length ∧
    (processItemCounts tr targetLanguages item).2.2 =
      (targetLanguages.filter (fun l => !(exceptOk (tr item l)))).length := by
  unfold processItemCounts
  have h := translateItemFoldl_counts tr item targetLanguages
    (⟨item.id, item.text, [], "completed", []⟩, 0, 0)
  simpa using h

/-- Helper for C3: the batch loop's counters are the success and failure
counts over the concatenation of the batches, and it produces one item
result per item. -/
theorem bulkProcess_counts (tr : ContentItem → String → Except String String)
    (targetLanguages : List String) (batches : List (List ContentItem)) :
    ∀ (results : List ItemResult) (c f : Nat),
      (batches.foldl (fun acc batch =>
        let batchResults := batch.map (processItemCounts tr targetLanguages)
        (acc.1 ++ batchResults.map (·.1),
          acc.2.1 + (batchResults.map (fun r => r.2.1)).sum,
          acc.2.2 + (batchResults.map (fun r => r.2.2)).sum)) (results, c, f)).2.1 =
        c + successCount tr targetLanguages batches.flatten ∧
      (batches.foldl (fun acc batch =>
        let batchResults := batch.map (processItemCounts tr targetLanguages)
        (acc.1 ++ batchResults.map (·.1),
          acc.2.1 + (batchResults.map (fun r => r.2.1)).sum,
          acc.2.2 + (batchResults.map (fun r => r.2.2)).sum)) (results, c, f)).2.2 =
        f + failureCount tr targetLanguages batches.flatten := by
  induction batches with
  | nil => intro results c f; simp [successCount, failureCount]
  | cons batch rest ih =>
      intro results c f
      simp only [List.foldl_cons, List.flatten_cons]
      obtain ⟨h1, h2⟩ := ih (results ++ (batch.map (processItemCounts tr targetLanguages)).map (·.1))
        (c + ((batch.map (processItemCounts tr targetLanguages)).map (fun r => r.2.1)).sum)
        (f + ((batch.map (processItemCounts tr targetLanguages)).map (fun r => r.2.2)).sum)
      have hbatch1 : ((batch.map (processItemCounts tr targetLanguages)).map
          (fun r => r.2.1)).sum = successCount tr targetLanguages batch := by
        unfold successCount
        rw [List.map_map]
        congr 1
        apply List.map_congr_left
        intro item _
        exact (processItemCounts_counts tr targetLanguages item).1
      have hbatch2 : ((batch.map (processItemCounts tr targetLanguages)).map
          (fun r => r.2.2)).sum = failureCount tr targetLanguages batch := by
        unfold failureCount
        rw [List.map_map]
        congr 1
        apply List.map_congr_left
        intro item _
        exact (processItemCounts_counts tr targetLanguages item).2
      constructor
      · rw [h1, hbatch1]
        unfold successCount
        rw [List.map_append, List.sum_append]
        omega
      · rw [h2, hbatch2]
        unfold failureCount
        rw [List.map_append, List.sum_append]
        omega

/-- Helper for C3: the fueled batch splitting restores the content when
flattened (positive batch size, enough fuel). -/
theorem chunksAux_join (fuel n : Nat) (l : List ContentItem)
    (hfuel : l.length ≤ fuel) (hn : 1 ≤ n) :
    (chunksAux fuel n l).flatten = l := by
  induction fuel generalizing l with
  | zero =>
      cases l with
      | nil => rfl
      | cons x xs => simp at hfuel
  | succ fuel ih =>
      cases l with
      | nil => rfl
      | cons x xs =>
          simp only [chunksAux, List.flatten_cons]
          rw [ih ((x :: xs).drop n) (by
            rw [List.length_drop]
            simp only [List.length_cons] at hfuel ⊢
            omega)]
          exact List.take_append_drop n (x :: xs)

/-- Helper for C3: batch splitting restores the content when flattened. -/
theorem chunks_join (n : Nat) (l : List ContentItem) (hn : 1 ≤ n) :
    (chunks n l).flatten = l :=
  chunksAux_join l.length n l (le_refl _) hn

/-- Helper for C3: successes and failures partition the item-language
pairs. -/
theorem success_add_failure (tr : ContentItem → String → Except String String)
    (targetLanguages : List String) (content : List ContentItem) :
    successCount tr targetLanguages content + failureCount tr targetLanguages content =
      content.length * targetLanguages.length := by
  induction content with
  | nil => simp [successCount, failureCount]
  | cons i is ih =>
      unfold successCount failureCount at ih ⊢
      simp only [List.map_cons, List.sum_cons, List.length_cons]
      have hpart := length_filter_add_compl (fun l => exceptOk (tr i l)) targetLanguages
      have : (is.length + 1) * targetLanguages.length =
          is.length * targetLanguages.length + targetLanguages.length := by ring
      omega

/-- C3: for every bulk-translation job with N content items and M target
languages (a request passing the handler's validations, positive batch
size) in which at least one per-(item, language) translation succeeds, the
job is finalized with status `completed` — it is finalized `failed` only
when no translation succeeded — and the final progress counters satisfy
`completedItems` = number of successful translations and `failedItems` =
number of failed translations, summing to N*M. -/
theorem c3_bulk_translation (tr : ContentItem → String → Except String String)
    (uid sourceLanguage jobId : String) (targetLanguages : List String)
    (content : List ContentItem) (batchSize : Nat)
    (hbatch : 1 ≤ batchSize)
    (hsrc : sourceLanguage ≠ "") (htl : targetLanguages ≠ [])
    (hc : content ≠ []) (hc2 : content.length ≤ 5000)
    (htl2 : targetLanguages.length ≤ 10)
    (hitems : ∀ item ∈ content,
      item.id ≠ "" ∧ item.ns ≠ "" ∧ item.key ≠ "" ∧ item.text ≠ "") :
    ∃ outcome : BulkTranslationOutcome,
      bulkTranslationRun tr (some uid) sourceLanguage targetLanguages content
        batchSize jobId = .ok outcome ∧
      outcome.progress.completedItems = successCount tr targetLanguages content ∧
      outcome.progress.failedItems = failureCount tr targetLanguages content ∧
      outcome.progress.completedItems + outcome.progress.failedItems =
        content.length * targetLanguages.length ∧
      outcome.progress.totalItems = content.length * targetLanguages.length ∧
      (1 ≤ successCount tr targetLanguages content → outcome.status = "completed") ∧
      (outcome.status = "failed" ↔
        successCount tr targetLanguages content = 0 ∧
          failureCount tr targetLanguages content ≠ 0) := by
  have hrun : bulkTranslationRun tr (some uid) sourceLanguage targetLanguages content
      batchSize jobId =
      .ok ⟨jobId,
        finalStatus (bulkProcess tr targetLanguages (chunks batchSize content)).2.1
          (bulkProcess tr targetLanguages (chunks batchSize content)).2.2,
        ⟨content.length * targetLanguages.length,
          (bulkProcess tr targetLanguages (chunks batchSize content)).2.1,
          (bulkProcess tr targetLanguages (chunks batchSize content)).2.2⟩,
        if (bulkProcess tr targetLanguages (chunks batchSize content)).1.length ≤ 100
        then some (bulkProcess tr targetLanguages (chunks batchSize content)).1
        else none⟩ := by
    simp only [bulkTranslationRun]
    rw [if_neg (by
      rintro (h | h)
      · exact hsrc h
      · exact htl (List.length_eq_zero.mp h))]
    rw [if_neg (by
      intro h
      exact hc (List.length_eq_zero.mp h))]
    rw [if_neg (by omega)]
    rw [if_neg (by omega)]
    rw [if_neg (by
      rintro ⟨item, hmem, habs⟩
      obtain ⟨h1, h2, h3, h4⟩ := hitems item hmem
      rcases habs with h | h | h | h
      · exact h1 h
      · exact h2 h
      · exact h3 h
      · exact h4 h)]
  have hcounts := bulkProcess_counts tr targetLanguages (chunks batchSize content) [] 0 0
  have hjoin := chunks_join batchSize content hbatch
  rw [hjoin] at hcounts
  have hc1 : (bulkProcess tr targetLanguages (chunks batchSize content)).2.1 =
      successCount tr targetLanguages content := by
    have := hcounts.1
    unfold bulkProcess
    omega
  have hf1 : (bulkProcess tr targetLanguages (chunks batchSize content)).2.2 =
      failureCount tr targetLanguages content := by
    have := hcounts.2
    unfold bulkProcess
    omega
  refine ⟨_, hrun, hc1, hf1, ?_, rfl, ?_, ?_⟩
  · rw [hc1, hf1]
    exact success_add_failure tr targetLanguages content
  · intro hpos
    show finalStatus _ _ = "completed"
    rw [hc1, hf1]
    unfold finalStatus
    split_ifs <;> first | rfl | omega
  · show finalStatus _ _ = "failed" ↔ _
    rw [hc1, hf1]
    unfold finalStatus
    split_ifs with h1 h2
    · constructor
      · intro habs; exact absurd habs (by decide)
      · rintro ⟨-, hf0⟩; exact absurd h1 hf0
    · constructor
      · intro habs; exact absurd habs (by decide)
      · rintro ⟨hc0, -⟩; omega
    · exact ⟨fun _ => ⟨by omega, h1⟩, fun _ => rfl⟩

/-- A concrete translation oracle for the C3 witness: fails exactly on the
item with id `b`. -/
def c3tr : ContentItem → String → Except String String :=
  fun item _ => if item.id = "b" then .error "translation failed"
    else .ok ("fr:" ++ item.text)

/-- Concrete content for the C3 witness: two items, one of which fails. -/
def c3content : List ContentItem :=
  [⟨"a", "common", "k1", "Hello"⟩, ⟨"b", "common", "k2", "World"⟩]

/-- Witness for `c3_bulk_translation`: two items, one target language, one
forced failure — the job completes with counters 1/1. -/
theorem c3_bulk_translation_witness :
    ∃ outcome : BulkTranslationOutcome,
      bulkTranslationRun c3tr (some "u1") "en" ["fr"] c3content 50 "job1" =
        .ok outcome ∧
      outcome.progress.completedItems = 1 ∧ outcome.progress.failedItems = 1 ∧
      outcome.status = "completed" := by
  obtain ⟨o, heq, hcomp, hfail, hsum, htot, hcs, hfs⟩ :=
    c3_bulk_translation c3tr "u1" "en" "job1" ["fr"] c3content 50
      (by norm_num) (by decide) (by decide) (by decide) (by decide) (by decide)
      (by decide)
  refine ⟨o, heq, ?_, ?_, ?_⟩
  · rw [hcomp]; rfl
  · rw [hfail]; rfl
  · exact hcs (by decide)

end CVPlusI18n
